import Mathlib

/-!
# Verification of the server-side renderer of `topcoder-react-utils`

This development shallowly embeds the server-side rendering middleware of
the repository (`src/server/renderer.jsx`) together with the cryptographic
primitives it relies on (AES-256 in CBC mode with PKCS#7 padding, as
implemented by the `node-forge` collaborator, and base64 transport
encoding), and proves or refutes the specification claims about it.

Bytes are modelled as `Nat` values below 256; byte strings as `List Nat`.
-/

set_option maxRecDepth 1000000
set_option maxHeartbeats 4000000

namespace TCRU

/-! ## GF(2^8) arithmetic (the Rijndael field, modulus x^8+x^4+x^3+x+1) -/

/-- Multiplication of a field element by x ("xtime"): shift left and reduce
by 0x11B when the top bit was set.  Output is always a byte. -/
def xtime (b : Nat) : Nat :=
  if b % 256 < 128 then (2 * b) % 256 else ((2 * b) % 256) ^^^ 27

/-- One step of Russian-peasant multiplication in GF(2^8). -/
def gmulGo : Nat → Nat → Nat → Nat → Nat
  | 0, _, _, acc => acc
  | n + 1, a, b, acc =>
      gmulGo n (xtime a) (b / 2) (if b % 2 = 1 then acc ^^^ a else acc)

/-- Multiplication in GF(2^8). -/
def gmul (a b : Nat) : Nat := gmulGo 8 (a % 256) (b % 256) 0

/-- Square-and-multiply exponentiation in GF(2^8) (8 bits of exponent). -/
def gpowGo : Nat → Nat → Nat → Nat → Nat
  | 0, _, _, acc => acc
  | n + 1, b, e, acc =>
      gpowGo n (gmul b b) (e / 2) (if e % 2 = 1 then gmul acc b else acc)

/-- Multiplicative inverse in GF(2^8) (with `ginv 0 = 0`), computed as
b^254, exactly as `node-forge` seeds its S-box tables from field inverses. -/
def ginv (b : Nat) : Nat := gpowGo 8 (b % 256) 254 1

/-- Rotate the low 8 bits of a byte left by `n` positions. -/
def rotl8 (b n : Nat) : Nat :=
  ((b * 2 ^ n) % 256) ^^^ (b % 256 / 2 ^ (8 - n))

/-- The Rijndael S-box: affine transform of the field inverse. -/
def sbox (x : Nat) : Nat :=
  let t := ginv x
  t ^^^ rotl8 t 1 ^^^ rotl8 t 2 ^^^ rotl8 t 3 ^^^ rotl8 t 4 ^^^ 99

/-- The inverse Rijndael S-box: field inverse of the inverse affine
transform. -/
def invSbox (y : Nat) : Nat :=
  ginv (rotl8 y 1 ^^^ rotl8 y 3 ^^^ rotl8 y 6 ^^^ 5)

def sboxTable : List Nat :=
  [
  99, 124, 119, 123, 242, 107, 111, 197, 48, 1, 103, 43, 254, 215, 171,
  118, 202, 130, 201, 125, 250, 89, 71, 240, 173, 212, 162, 175, 156, 164,
  114, 192, 183, 253, 147, 38, 54, 63, 247, 204, 52, 165, 229, 241, 113,
  216, 49, 21, 4, 199, 35, 195, 24, 150, 5, 154, 7, 18, 128, 226, 235, 39,
  178, 117, 9, 131, 44, 26, 27, 110, 90, 160, 82, 59, 214, 179, 41, 227,
  47, 132, 83, 209, 0, 237, 32, 252, 177, 91, 106, 203, 190, 57, 74, 76,
  88, 207, 208, 239, 170, 251, 67, 77, 51, 133, 69, 249, 2, 127, 80, 60,
  159, 168, 81, 163, 64, 143, 146, 157, 56, 245, 188, 182, 218, 33, 16,
  255, 243, 210, 205, 12, 19, 236, 95, 151, 68, 23, 196, 167, 126, 61,
  100, 93, 25, 115, 96, 129, 79, 220, 34, 42, 144, 136, 70, 238, 184, 20,
  222, 94, 11, 219, 224, 50, 58, 10, 73, 6, 36, 92, 194, 211, 172, 98,
  145, 149, 228, 121, 231, 200, 55, 109, 141, 213, 78, 169, 108, 86, 244,
  234, 101, 122, 174, 8, 186, 120, 37, 46, 28, 166, 180, 198, 232, 221,
  116, 31, 75, 189, 139, 138, 112, 62, 181, 102, 72, 3, 246, 14, 97, 53,
  87, 185, 134, 193, 29, 158, 225, 248, 152, 17, 105, 217, 142, 148, 155,
  30, 135, 233, 206, 85, 40, 223, 140, 161, 137, 13, 191, 230, 66, 104,
  65, 153, 45, 15, 176, 84, 187, 22
  ]

def invSboxTable : List Nat :=
  [
  82, 9, 106, 213, 48, 54, 165, 56, 191, 64, 163, 158, 129, 243, 215, 251,
  124, 227, 57, 130, 155, 47, 255, 135, 52, 142, 67, 68, 196, 222, 233,
  203, 84, 123, 148, 50, 166, 194, 35, 61, 238, 76, 149, 11, 66, 250, 195,
  78, 8, 46, 161, 102, 40, 217, 36, 178, 118, 91, 162, 73, 109, 139, 209,
  37, 114, 248, 246, 100, 134, 104, 152, 22, 212, 164, 92, 204, 93, 101,
  182, 146, 108, 112, 72, 80, 253, 237, 185, 218, 94, 21, 70, 87, 167,
  141, 157, 132, 144, 216, 171, 0, 140, 188, 211, 10, 247, 228, 88, 5,
  184, 179, 69, 6, 208, 44, 30, 143, 202, 63, 15, 2, 193, 175, 189, 3, 1,
  19, 138, 107, 58, 145, 17, 65, 79, 103, 220, 234, 151, 242, 207, 206,
  240, 180, 230, 115, 150, 172, 116, 34, 231, 173, 53, 133, 226, 249, 55,
  232, 28, 117, 223, 110, 71, 241, 26, 113, 29, 41, 197, 137, 111, 183,
  98, 14, 170, 24, 190, 27, 252, 86, 62, 75, 198, 210, 121, 32, 154, 219,
  192, 254, 120, 205, 90, 244, 31, 221, 168, 51, 136, 7, 199, 49, 177, 18,
  16, 89, 39, 128, 236, 95, 96, 81, 127, 169, 25, 181, 74, 13, 45, 229,
  122, 159, 147, 201, 156, 239, 160, 224, 59, 77, 174, 42, 245, 176, 200,
  235, 187, 60, 131, 83, 153, 97, 23, 43, 4, 126, 186, 119, 214, 38, 225,
  105, 20, 99, 85, 33, 12, 125
  ]

/-- The S-box table is exactly the table of the affine-of-inverse
construction (the same construction `node-forge` runs at start-up). -/
theorem sboxTable_eq : sboxTable = (List.range 256).map sbox := by decide

/-- The inverse S-box table is exactly the table of the inverse
construction. -/
theorem invSboxTable_eq : invSboxTable = (List.range 256).map invSbox := by
  decide

/-- S-box lookup. -/
def sb (x : Nat) : Nat := sboxTable.getD x 0

/-- Inverse S-box lookup. -/
def isb (y : Nat) : Nat := invSboxTable.getD y 0

theorem sb_lt (x : Nat) (h : x < 256) : sb x < 256 := by
  revert x h; decide

theorem isb_lt (y : Nat) (h : y < 256) : isb y < 256 := by
  revert y h; decide

theorem isb_sb (x : Nat) (h : x < 256) : isb (sb x) = x := by
  revert x h; decide

theorem xtime_lt (b : Nat) : xtime b < 256 := by
  unfold xtime
  split
  · exact Nat.mod_lt _ (by omega)
  · exact Nat.xor_lt_two_pow (n := 8) (Nat.mod_lt _ (by omega)) (by omega)

/-! ## Xor toolbox -/

theorem xor_lcomm (a b c : Nat) : a ^^^ (b ^^^ c) = b ^^^ (a ^^^ c) := by
  rw [← Nat.xor_assoc, Nat.xor_comm a b, Nat.xor_assoc]

theorem xor_lt (x y : Nat) (hx : x < 256) (hy : y < 256) :
    x ^^^ y < 256 :=
  Nat.xor_lt_two_pow (n := 8) hx hy

theorem mod_two_pow_xor (a b n : Nat) :
    (a ^^^ b) % 2 ^ n = a % 2 ^ n ^^^ b % 2 ^ n := by
  apply Nat.eq_of_testBit_eq
  intro i
  simp only [Nat.testBit_mod_two_pow, Nat.testBit_xor]
  by_cases h : i < n <;> simp [h]

theorem mod256_xor (a b : Nat) :
    (a ^^^ b) % 256 = a % 256 ^^^ b % 256 := by
  have h := mod_two_pow_xor a b 8
  norm_num at h
  exact h

theorem two_mul_xor (a b : Nat) : 2 * (a ^^^ b) = 2 * a ^^^ 2 * b := by
  have hs : ∀ x : Nat, 2 * x = x <<< 1 := by
    intro x
    rw [Nat.shiftLeft_eq]
    omega
  rw [hs, hs, hs]
  apply Nat.eq_of_testBit_eq
  intro i
  simp only [Nat.testBit_shiftLeft, Nat.testBit_xor]
  by_cases h : 1 ≤ i <;> simp [h]

theorem ge128_iff_testBit7 (v : Nat) : 128 ≤ v % 256 ↔ v.testBit 7 = true := by
  rw [Nat.testBit_to_div_mod]
  simp only [decide_eq_true_eq]
  omega

theorem testBit7_false_of_lt (v : Nat) (h : v < 128) : v.testBit 7 = false :=
  Nat.testBit_lt_two_pow h

/-- `xtime` is GF(2)-linear on bytes: the shifted parts distribute over
xor bit by bit, and the conditional 0x1B reduction is controlled by bit 7,
which xor also respects. -/
theorem xtime_xor (x y : Nat) (hx : x < 256) (hy : y < 256) :
    xtime (x ^^^ y) = xtime x ^^^ xtime y := by
  have hxy : x ^^^ y < 256 := xor_lt x y hx hy
  have hmx : x % 256 = x := Nat.mod_eq_of_lt hx
  have hmy : y % 256 = y := Nat.mod_eq_of_lt hy
  have hmxy : (x ^^^ y) % 256 = x ^^^ y := Nat.mod_eq_of_lt hxy
  have hdist : 2 * (x ^^^ y) % 256 = 2 * x % 256 ^^^ 2 * y % 256 := by
    rw [two_mul_xor]
    exact mod256_xor _ _
  have hbit : (x ^^^ y).testBit 7 = ((x.testBit 7).xor (y.testBit 7)) :=
    Nat.testBit_xor x y 7
  unfold xtime
  rw [hmx, hmy, hmxy]
  by_cases h7x : x < 128 <;> by_cases h7y : y < 128
  · have hlt : x ^^^ y < 128 := Nat.xor_lt_two_pow (n := 7) h7x h7y
    rw [if_pos hlt, if_pos h7x, if_pos h7y, hdist]
  · have hty : y.testBit 7 = true := by
      rw [← ge128_iff_testBit7, hmy]
      omega
    have htxy : (x ^^^ y).testBit 7 = true := by
      rw [hbit, testBit7_false_of_lt x h7x, hty]
      rfl
    have hge : ¬ x ^^^ y < 128 := by
      have := (ge128_iff_testBit7 (x ^^^ y)).mpr htxy
      omega
    rw [if_neg hge, if_pos h7x, if_neg (by omega : ¬ y < 128), hdist]
    rw [Nat.xor_assoc]
  · have htx : x.testBit 7 = true := by
      rw [← ge128_iff_testBit7, hmx]
      omega
    have htxy : (x ^^^ y).testBit 7 = true := by
      rw [hbit, testBit7_false_of_lt y h7y, htx]
      rfl
    have hge : ¬ x ^^^ y < 128 := by
      have := (ge128_iff_testBit7 (x ^^^ y)).mpr htxy
      omega
    rw [if_neg hge, if_neg (by omega : ¬ x < 128), if_pos h7y, hdist]
    rw [Nat.xor_assoc, Nat.xor_assoc, Nat.xor_comm 27 (2 * y % 256)]
  · have htx : x.testBit 7 = true := by
      rw [← ge128_iff_testBit7, hmx]
      omega
    have hty : y.testBit 7 = true := by
      rw [← ge128_iff_testBit7, hmy]
      omega
    have htxy : (x ^^^ y).testBit 7 = false := by
      rw [hbit, htx, hty]
      rfl
    have hlt : x ^^^ y < 128 := by
      rcases Nat.lt_or_ge (x ^^^ y) 128 with h | h
      · exact h
      · have h2 : 128 ≤ (x ^^^ y) % 256 := by omega
        rw [ge128_iff_testBit7] at h2
        rw [htxy] at h2
        simp at h2
    rw [if_pos hlt, if_neg (by omega : ¬ x < 128),
      if_neg (by omega : ¬ y < 128), hdist]
    rw [Nat.xor_assoc, ← Nat.xor_assoc 27 (2 * y % 256) 27,
      Nat.xor_comm 27 (2 * y % 256), Nat.xor_assoc, Nat.xor_self,
      Nat.xor_zero]

theorem xtime2_xor (x y : Nat) (hx : x < 256) (hy : y < 256) :
    xtime (xtime (x ^^^ y)) = xtime (xtime x) ^^^ xtime (xtime y) := by
  rw [xtime_xor x y hx hy, xtime_xor _ _ (xtime_lt x) (xtime_lt y)]

theorem xtime3_xor (x y : Nat) (hx : x < 256) (hy : y < 256) :
    xtime (xtime (xtime (x ^^^ y)))
      = xtime (xtime (xtime x)) ^^^ xtime (xtime (xtime y)) := by
  rw [xtime2_xor x y hx hy, xtime_xor _ _ (xtime_lt _) (xtime_lt _)]

/-! ## MixColumns coefficients (multiplication by 9, 11, 13, 14) -/

/-- Multiplication by 0x09 in GF(2^8), written as an xtime chain. -/
def g9 (x : Nat) : Nat := xtime (xtime (xtime x)) ^^^ x

/-- Multiplication by 0x0B in GF(2^8). -/
def g11 (x : Nat) : Nat := xtime (xtime (xtime x)) ^^^ xtime x ^^^ x

/-- Multiplication by 0x0D in GF(2^8). -/
def g13 (x : Nat) : Nat := xtime (xtime (xtime x)) ^^^ xtime (xtime x) ^^^ x

/-- Multiplication by 0x0E in GF(2^8). -/
def g14 (x : Nat) : Nat :=
  xtime (xtime (xtime x)) ^^^ xtime (xtime x) ^^^ xtime x

theorem g9_lt (x : Nat) (hx : x < 256) : g9 x < 256 :=
  xor_lt _ _ (xtime_lt _) hx

theorem g11_lt (x : Nat) (hx : x < 256) : g11 x < 256 :=
  xor_lt _ _ (xor_lt _ _ (xtime_lt _) (xtime_lt _)) hx

theorem g13_lt (x : Nat) (hx : x < 256) : g13 x < 256 :=
  xor_lt _ _ (xor_lt _ _ (xtime_lt _) (xtime_lt _)) hx

theorem g14_lt (x : Nat) : g14 x < 256 :=
  xor_lt _ _ (xor_lt _ _ (xtime_lt _) (xtime_lt _)) (xtime_lt _)

theorem g9_xor (x y : Nat) (hx : x < 256) (hy : y < 256) :
    g9 (x ^^^ y) = g9 x ^^^ g9 y := by
  unfold g9
  rw [xtime3_xor x y hx hy]
  simp [Nat.xor_assoc, Nat.xor_comm, xor_lcomm]

theorem g11_xor (x y : Nat) (hx : x < 256) (hy : y < 256) :
    g11 (x ^^^ y) = g11 x ^^^ g11 y := by
  unfold g11
  rw [xtime3_xor x y hx hy, xtime_xor x y hx hy]
  simp [Nat.xor_assoc, Nat.xor_comm, xor_lcomm]

theorem g13_xor (x y : Nat) (hx : x < 256) (hy : y < 256) :
    g13 (x ^^^ y) = g13 x ^^^ g13 y := by
  unfold g13
  rw [xtime3_xor x y hx hy, xtime2_xor x y hx hy]
  simp [Nat.xor_assoc, Nat.xor_comm, xor_lcomm]

theorem g14_xor (x y : Nat) (hx : x < 256) (hy : y < 256) :
    g14 (x ^^^ y) = g14 x ^^^ g14 y := by
  unfold g14
  rw [xtime3_xor x y hx hy, xtime2_xor x y hx hy, xtime_xor x y hx hy]
  simp [Nat.xor_assoc, Nat.xor_comm, xor_lcomm]

/-! ## MixColumns, byte by byte -/

/-- First output byte of a MixColumns column (2a + 3b + c + d). -/
def mc0 (a b c d : Nat) : Nat := xtime a ^^^ (xtime b ^^^ b) ^^^ c ^^^ d

/-- Second output byte of a MixColumns column (a + 2b + 3c + d). -/
def mc1 (a b c d : Nat) : Nat := a ^^^ xtime b ^^^ (xtime c ^^^ c) ^^^ d

/-- Third output byte of a MixColumns column (a + b + 2c + 3d). -/
def mc2 (a b c d : Nat) : Nat := a ^^^ b ^^^ xtime c ^^^ (xtime d ^^^ d)

/-- Fourth output byte of a MixColumns column (3a + b + c + 2d). -/
def mc3 (a b c d : Nat) : Nat := (xtime a ^^^ a) ^^^ b ^^^ c ^^^ xtime d

/-- First output byte of an inverse MixColumns column (14a+11b+13c+9d). -/
def imc0 (a b c d : Nat) : Nat := g14 a ^^^ g11 b ^^^ g13 c ^^^ g9 d

/-- Second output byte of an inverse MixColumns column (9a+14b+11c+13d). -/
def imc1 (a b c d : Nat) : Nat := g9 a ^^^ g14 b ^^^ g11 c ^^^ g13 d

/-- Third output byte of an inverse MixColumns column (13a+9b+14c+11d). -/
def imc2 (a b c d : Nat) : Nat := g13 a ^^^ g9 b ^^^ g14 c ^^^ g11 d

/-- Fourth output byte of an inverse MixColumns column (11a+13b+9c+14d). -/
def imc3 (a b c d : Nat) : Nat := g11 a ^^^ g13 b ^^^ g9 c ^^^ g14 d

theorem coefK1 (t : Nat) (h : t < 256) :
    g14 (xtime t) ^^^ g11 t ^^^ g13 t ^^^ g9 (xtime t ^^^ t) = t := by
  revert t h; decide

theorem coefK2 (t : Nat) (h : t < 256) :
    g14 (xtime t ^^^ t) ^^^ g11 (xtime t) ^^^ g13 t ^^^ g9 t = 0 := by
  revert t h; decide

theorem coefK3 (t : Nat) (h : t < 256) :
    g14 t ^^^ g11 (xtime t ^^^ t) ^^^ g13 (xtime t) ^^^ g9 t = 0 := by
  revert t h; decide

theorem coefK4 (t : Nat) (h : t < 256) :
    g14 t ^^^ g11 t ^^^ g13 (xtime t ^^^ t) ^^^ g9 (xtime t) = 0 := by
  revert t h; decide

theorem g14_xor4 (p q r s : Nat) (hp : p < 256) (hq : q < 256)
    (hr : r < 256) (hs : s < 256) :
    g14 (p ^^^ q ^^^ r ^^^ s) = g14 p ^^^ g14 q ^^^ g14 r ^^^ g14 s := by
  rw [g14_xor _ s (xor_lt _ _ (xor_lt _ _ hp hq) hr) hs,
    g14_xor _ r (xor_lt _ _ hp hq) hr, g14_xor p q hp hq]

theorem g11_xor4 (p q r s : Nat) (hp : p < 256) (hq : q < 256)
    (hr : r < 256) (hs : s < 256) :
    g11 (p ^^^ q ^^^ r ^^^ s) = g11 p ^^^ g11 q ^^^ g11 r ^^^ g11 s := by
  rw [g11_xor _ s (xor_lt _ _ (xor_lt _ _ hp hq) hr) hs,
    g11_xor _ r (xor_lt _ _ hp hq) hr, g11_xor p q hp hq]

theorem g13_xor4 (p q r s : Nat) (hp : p < 256) (hq : q < 256)
    (hr : r < 256) (hs : s < 256) :
    g13 (p ^^^ q ^^^ r ^^^ s) = g13 p ^^^ g13 q ^^^ g13 r ^^^ g13 s := by
  rw [g13_xor _ s (xor_lt _ _ (xor_lt _ _ hp hq) hr) hs,
    g13_xor _ r (xor_lt _ _ hp hq) hr, g13_xor p q hp hq]

theorem g9_xor4 (p q r s : Nat) (hp : p < 256) (hq : q < 256)
    (hr : r < 256) (hs : s < 256) :
    g9 (p ^^^ q ^^^ r ^^^ s) = g9 p ^^^ g9 q ^^^ g9 r ^^^ g9 s := by
  rw [g9_xor _ s (xor_lt _ _ (xor_lt _ _ hp hq) hr) hs,
    g9_xor _ r (xor_lt _ _ hp hq) hr, g9_xor p q hp hq]

/-- Inverse MixColumns inverts MixColumns: first byte. -/
theorem imc0_mc (a b c d : Nat) (ha : a < 256) (hb : b < 256)
    (hc : c < 256) (hd : d < 256) :
    imc0 (mc0 a b c d) (mc1 a b c d) (mc2 a b c d) (mc3 a b c d) = a := by
  have hxa := xtime_lt a
  have hxb := xtime_lt b
  have hxc := xtime_lt c
  have hxd := xtime_lt d
  have h3a := xor_lt _ _ hxa ha
  have h3b := xor_lt _ _ hxb hb
  have h3c := xor_lt _ _ hxc hc
  have h3d := xor_lt _ _ hxd hd
  unfold imc0 mc0 mc1 mc2 mc3
  rw [g14_xor4 _ _ _ _ hxa h3b hc hd, g11_xor4 _ _ _ _ ha hxb h3c hd,
    g13_xor4 _ _ _ _ ha hb hxc h3d, g9_xor4 _ _ _ _ h3a hb hc hxd]
  calc (g14 (xtime a) ^^^ g14 (xtime b ^^^ b) ^^^ g14 c ^^^ g14 d)
        ^^^ (g11 a ^^^ g11 (xtime b) ^^^ g11 (xtime c ^^^ c) ^^^ g11 d)
        ^^^ (g13 a ^^^ g13 b ^^^ g13 (xtime c) ^^^ g13 (xtime d ^^^ d))
        ^^^ (g9 (xtime a ^^^ a) ^^^ g9 b ^^^ g9 c ^^^ g9 (xtime d))
      = (g14 (xtime a) ^^^ g11 a ^^^ g13 a ^^^ g9 (xtime a ^^^ a))
        ^^^ ((g14 (xtime b ^^^ b) ^^^ g11 (xtime b) ^^^ g13 b ^^^ g9 b)
        ^^^ ((g14 c ^^^ g11 (xtime c ^^^ c) ^^^ g13 (xtime c) ^^^ g9 c)
        ^^^ (g14 d ^^^ g11 d ^^^ g13 (xtime d ^^^ d) ^^^ g9 (xtime d)))) := by
        simp [Nat.xor_assoc, Nat.xor_comm, xor_lcomm]
    _ = a := by
        rw [coefK1 a ha, coefK2 b hb, coefK3 c hc, coefK4 d hd]
        simp

/-- Inverse MixColumns inverts MixColumns: second byte. -/
theorem imc1_mc (a b c d : Nat) (ha : a < 256) (hb : b < 256)
    (hc : c < 256) (hd : d < 256) :
    imc1 (mc0 a b c d) (mc1 a b c d) (mc2 a b c d) (mc3 a b c d) = b := by
  have hxa := xtime_lt a
  have hxb := xtime_lt b
  have hxc := xtime_lt c
  have hxd := xtime_lt d
  have h3a := xor_lt _ _ hxa ha
  have h3b := xor_lt _ _ hxb hb
  have h3c := xor_lt _ _ hxc hc
  have h3d := xor_lt _ _ hxd hd
  unfold imc1 mc0 mc1 mc2 mc3
  rw [g9_xor4 _ _ _ _ hxa h3b hc hd, g14_xor4 _ _ _ _ ha hxb h3c hd,
    g11_xor4 _ _ _ _ ha hb hxc h3d, g13_xor4 _ _ _ _ h3a hb hc hxd]
  calc (g9 (xtime a) ^^^ g9 (xtime b ^^^ b) ^^^ g9 c ^^^ g9 d)
        ^^^ (g14 a ^^^ g14 (xtime b) ^^^ g14 (xtime c ^^^ c) ^^^ g14 d)
        ^^^ (g11 a ^^^ g11 b ^^^ g11 (xtime c) ^^^ g11 (xtime d ^^^ d))
        ^^^ (g13 (xtime a ^^^ a) ^^^ g13 b ^^^ g13 c ^^^ g13 (xtime d))
      = (g14 a ^^^ g11 a ^^^ g13 (xtime a ^^^ a) ^^^ g9 (xtime a))
        ^^^ ((g14 (xtime b) ^^^ g11 b ^^^ g13 b ^^^ g9 (xtime b ^^^ b))
        ^^^ ((g14 (xtime c ^^^ c) ^^^ g11 (xtime c) ^^^ g13 c ^^^ g9 c)
        ^^^ (g14 d ^^^ g11 (xtime d ^^^ d) ^^^ g13 (xtime d) ^^^ g9 d))) := by
        simp [Nat.xor_assoc, Nat.xor_comm, xor_lcomm]
    _ = b := by
        rw [coefK4 a ha, coefK1 b hb, coefK2 c hc, coefK3 d hd]
        simp

/-- Inverse MixColumns inverts MixColumns: third byte. -/
theorem imc2_mc (a b c d : Nat) (ha : a < 256) (hb : b < 256)
    (hc : c < 256) (hd : d < 256) :
    imc2 (mc0 a b c d) (mc1 a b c d) (mc2 a b c d) (mc3 a b c d) = c := by
  have hxa := xtime_lt a
  have hxb := xtime_lt b
  have hxc := xtime_lt c
  have hxd := xtime_lt d
  have h3a := xor_lt _ _ hxa ha
  have h3b := xor_lt _ _ hxb hb
  have h3c := xor_lt _ _ hxc hc
  have h3d := xor_lt _ _ hxd hd
  unfold imc2 mc0 mc1 mc2 mc3
  rw [g13_xor4 _ _ _ _ hxa h3b hc hd, g9_xor4 _ _ _ _ ha hxb h3c hd,
    g14_xor4 _ _ _ _ ha hb hxc h3d, g11_xor4 _ _ _ _ h3a hb hc hxd]
  calc (g13 (xtime a) ^^^ g13 (xtime b ^^^ b) ^^^ g13 c ^^^ g13 d)
        ^^^ (g9 a ^^^ g9 (xtime b) ^^^ g9 (xtime c ^^^ c) ^^^ g9 d)
        ^^^ (g14 a ^^^ g14 b ^^^ g14 (xtime c) ^^^ g14 (xtime d ^^^ d))
        ^^^ (g11 (xtime a ^^^ a) ^^^ g11 b ^^^ g11 c ^^^ g11 (xtime d))
      = (g14 a ^^^ g11 (xtime a ^^^ a) ^^^ g13 (xtime a) ^^^ g9 a)
        ^^^ ((g14 b ^^^ g11 b ^^^ g13 (xtime b ^^^ b) ^^^ g9 (xtime b))
        ^^^ ((g14 (xtime c) ^^^ g11 c ^^^ g13 c ^^^ g9 (xtime c ^^^ c))
        ^^^ (g14 (xtime d ^^^ d) ^^^ g11 (xtime d) ^^^ g13 d ^^^ g9 d))) := by
        simp [Nat.xor_assoc, Nat.xor_comm, xor_lcomm]
    _ = c := by
        rw [coefK3 a ha, coefK4 b hb, coefK1 c hc, coefK2 d hd]
        simp

/-- Inverse MixColumns inverts MixColumns: fourth byte. -/
theorem imc3_mc (a b c d : Nat) (ha : a < 256) (hb : b < 256)
    (hc : c < 256) (hd : d < 256) :
    imc3 (mc0 a b c d) (mc1 a b c d) (mc2 a b c d) (mc3 a b c d) = d := by
  have hxa := xtime_lt a
  have hxb := xtime_lt b
  have hxc := xtime_lt c
  have hxd := xtime_lt d
  have h3a := xor_lt _ _ hxa ha
  have h3b := xor_lt _ _ hxb hb
  have h3c := xor_lt _ _ hxc hc
  have h3d := xor_lt _ _ hxd hd
  unfold imc3 mc0 mc1 mc2 mc3
  rw [g11_xor4 _ _ _ _ hxa h3b hc hd, g13_xor4 _ _ _ _ ha hxb h3c hd,
    g9_xor4 _ _ _ _ ha hb hxc h3d, g14_xor4 _ _ _ _ h3a hb hc hxd]
  calc (g11 (xtime a) ^^^ g11 (xtime b ^^^ b) ^^^ g11 c ^^^ g11 d)
        ^^^ (g13 a ^^^ g13 (xtime b) ^^^ g13 (xtime c ^^^ c) ^^^ g13 d)
        ^^^ (g9 a ^^^ g9 b ^^^ g9 (xtime c) ^^^ g9 (xtime d ^^^ d))
        ^^^ (g14 (xtime a ^^^ a) ^^^ g14 b ^^^ g14 c ^^^ g14 (xtime d))
      = (g14 (xtime a ^^^ a) ^^^ g11 (xtime a) ^^^ g13 a ^^^ g9 a)
        ^^^ ((g14 b ^^^ g11 (xtime b ^^^ b) ^^^ g13 (xtime b) ^^^ g9 b)
        ^^^ ((g14 c ^^^ g11 c ^^^ g13 (xtime c ^^^ c) ^^^ g9 (xtime c))
        ^^^ (g14 (xtime d) ^^^ g11 d ^^^ g13 d ^^^ g9 (xtime d ^^^ d)))) := by
        simp [Nat.xor_assoc, Nat.xor_comm, xor_lcomm]
    _ = d := by
        rw [coefK2 a ha, coefK3 b hb, coefK4 c hc, coefK1 d hd]
        simp

theorem mc0_lt (a b c d : Nat) (hb : b < 256)
    (hc : c < 256) (hd : d < 256) : mc0 a b c d < 256 :=
  xor_lt _ _ (xor_lt _ _ (xor_lt _ _ (xtime_lt _)
    (xor_lt _ _ (xtime_lt _) hb)) hc) hd

theorem mc1_lt (a b c d : Nat) (ha : a < 256)
    (hc : c < 256) (hd : d < 256) : mc1 a b c d < 256 :=
  xor_lt _ _ (xor_lt _ _ (xor_lt _ _ ha (xtime_lt _))
    (xor_lt _ _ (xtime_lt _) hc)) hd

theorem mc2_lt (a b c d : Nat) (ha : a < 256) (hb : b < 256)
    (hd : d < 256) : mc2 a b c d < 256 :=
  xor_lt _ _ (xor_lt _ _ (xor_lt _ _ ha hb) (xtime_lt _))
    (xor_lt _ _ (xtime_lt _) hd)

theorem mc3_lt (a b c d : Nat) (ha : a < 256) (hb : b < 256)
    (hc : c < 256) : mc3 a b c d < 256 :=
  xor_lt _ _ (xor_lt _ _ (xor_lt _ _ (xor_lt _ _ (xtime_lt _) ha) hb) hc)
    (xtime_lt _)


/-! ## AES block operations (state = 16 bytes, column-major) -/

/-- A valid AES state or round key: 16 bytes. -/
def ValidBlock (s : List Nat) : Prop := s.length = 16 ∧ ∀ b ∈ s, b < 256

/-- SubBytes. -/
def subBytes (s : List Nat) : List Nat := s.map sb

/-- Inverse SubBytes. -/
def invSubBytes (s : List Nat) : List Nat := s.map isb

/-- ShiftRows (row r of the column-major state rotates left by r). -/
def shiftRows : List Nat → List Nat
  | [a0, a1, a2, a3, a4, a5, a6, a7, a8, a9, a10, a11, a12, a13, a14, a15] =>
      [a0, a5, a10, a15, a4, a9, a14, a3, a8, a13, a2, a7, a12, a1, a6, a11]
  | s => s

/-- Inverse ShiftRows. -/
def invShiftRows : List Nat → List Nat
  | [a0, a1, a2, a3, a4, a5, a6, a7, a8, a9, a10, a11, a12, a13, a14, a15] =>
      [a0, a13, a10, a7, a4, a1, a14, a11, a8, a5, a2, a15, a12, a9, a6, a3]
  | s => s

/-- MixColumns applied to the four columns of the state. -/
def mixColumns : List Nat → List Nat
  | [a0, a1, a2, a3, a4, a5, a6, a7, a8, a9, a10, a11, a12, a13, a14, a15] =>
      [mc0 a0 a1 a2 a3, mc1 a0 a1 a2 a3, mc2 a0 a1 a2 a3, mc3 a0 a1 a2 a3,
       mc0 a4 a5 a6 a7, mc1 a4 a5 a6 a7, mc2 a4 a5 a6 a7, mc3 a4 a5 a6 a7,
       mc0 a8 a9 a10 a11, mc1 a8 a9 a10 a11,
       mc2 a8 a9 a10 a11, mc3 a8 a9 a10 a11,
       mc0 a12 a13 a14 a15, mc1 a12 a13 a14 a15,
       mc2 a12 a13 a14 a15, mc3 a12 a13 a14 a15]
  | s => s

/-- Inverse MixColumns applied to the four columns of the state. -/
def invMixColumns : List Nat → List Nat
  | [a0, a1, a2, a3, a4, a5, a6, a7, a8, a9, a10, a11, a12, a13, a14, a15] =>
      [imc0 a0 a1 a2 a3, imc1 a0 a1 a2 a3, imc2 a0 a1 a2 a3, imc3 a0 a1 a2 a3,
       imc0 a4 a5 a6 a7, imc1 a4 a5 a6 a7, imc2 a4 a5 a6 a7, imc3 a4 a5 a6 a7,
       imc0 a8 a9 a10 a11, imc1 a8 a9 a10 a11,
       imc2 a8 a9 a10 a11, imc3 a8 a9 a10 a11,
       imc0 a12 a13 a14 a15, imc1 a12 a13 a14 a15,
       imc2 a12 a13 a14 a15, imc3 a12 a13 a14 a15]
  | s => s

/-- AddRoundKey: xor the state with a round key. -/
def addRK (k s : List Nat) : List Nat := List.zipWith Nat.xor k s

theorem zip_xor_cancel :
    ∀ (k s : List Nat), k.length = s.length →
      List.zipWith Nat.xor k (List.zipWith Nat.xor k s) = s
  | [], [], _ => rfl
  | k :: ks, b :: bs, h => by
      simp only [List.zipWith]
      refine congrArg₂ _ ?_ (zip_xor_cancel ks bs (by simpa using h))
      show k ^^^ (k ^^^ b) = b
      rw [← Nat.xor_assoc, Nat.xor_self, Nat.zero_xor]

theorem addRK_addRK (k s : List Nat) (h : k.length = s.length) :
    addRK k (addRK k s) = s := zip_xor_cancel k s h

theorem zip_xor_valid :
    ∀ (k s : List Nat), (∀ b ∈ k, b < 256) → (∀ b ∈ s, b < 256) →
      ∀ b ∈ List.zipWith Nat.xor k s, b < 256
  | [], _, _, _ => by simp
  | _ :: _, [], _, _ => by simp
  | k :: ks, b :: bs, hk, hs => by
      simp only [List.zipWith, List.mem_cons, forall_eq_or_imp]
      refine ⟨xor_lt _ _ (hk _ (by simp)) (hs _ (by simp)), ?_⟩
      intro x hx
      exact zip_xor_valid ks bs (fun y hy => hk y (by simp [hy]))
        (fun y hy => hs y (by simp [hy])) x hx

theorem addRK_valid (k s : List Nat) (hk : ValidBlock k)
    (hs : ValidBlock s) : ValidBlock (addRK k s) := by
  refine ⟨?_, zip_xor_valid k s hk.2 hs.2⟩
  simp [addRK, hk.1, hs.1]

/-- Destructuring evidence for 16-byte blocks. -/
theorem block16 (s : List Nat) (h : s.length = 16) :
    ∃ a0 a1 a2 a3 a4 a5 a6 a7 a8 a9 a10 a11 a12 a13 a14 a15,
      s = [a0, a1, a2, a3, a4, a5, a6, a7,
           a8, a9, a10, a11, a12, a13, a14, a15] := by
  match s, h with
  | [a0, a1, a2, a3, a4, a5, a6, a7, a8, a9, a10, a11, a12, a13, a14, a15],
      _ =>
    exact ⟨a0, a1, a2, a3, a4, a5, a6, a7, a8, a9, a10, a11, a12, a13, a14,
      a15, rfl⟩

theorem invShiftRows_shiftRows (s : List Nat) (h : s.length = 16) :
    invShiftRows (shiftRows s) = s := by
  obtain ⟨a0, a1, a2, a3, a4, a5, a6, a7, a8, a9, a10, a11, a12, a13, a14,
    a15, rfl⟩ := block16 s h
  rfl

theorem map_isb_sb (s : List Nat) (h : ∀ b ∈ s, b < 256) :
    (s.map sb).map isb = s := by
  induction s with
  | nil => rfl
  | cons b bs ih =>
      simp only [List.map, List.cons.injEq]
      exact ⟨isb_sb b (h b (by simp)),
        ih (fun y hy => h y (by simp [hy]))⟩

theorem invSubBytes_subBytes (s : List Nat) (h : ∀ b ∈ s, b < 256) :
    invSubBytes (subBytes s) = s := map_isb_sb s h

theorem invMixColumns_mixColumns (s : List Nat) (hv : ValidBlock s) :
    invMixColumns (mixColumns s) = s := by
  obtain ⟨a0, a1, a2, a3, a4, a5, a6, a7, a8, a9, a10, a11, a12, a13, a14,
    a15, rfl⟩ := block16 s hv.1
  have hb := hv.2
  simp only [List.mem_cons, List.not_mem_nil, or_false] at hb
  simp only [mixColumns, invMixColumns]
  rw [imc0_mc _ _ _ _ (hb a0 (by tauto)) (hb a1 (by tauto))
      (hb a2 (by tauto)) (hb a3 (by tauto)),
    imc1_mc _ _ _ _ (hb a0 (by tauto)) (hb a1 (by tauto))
      (hb a2 (by tauto)) (hb a3 (by tauto)),
    imc2_mc _ _ _ _ (hb a0 (by tauto)) (hb a1 (by tauto))
      (hb a2 (by tauto)) (hb a3 (by tauto)),
    imc3_mc _ _ _ _ (hb a0 (by tauto)) (hb a1 (by tauto))
      (hb a2 (by tauto)) (hb a3 (by tauto)),
    imc0_mc _ _ _ _ (hb a4 (by tauto)) (hb a5 (by tauto))
      (hb a6 (by tauto)) (hb a7 (by tauto)),
    imc1_mc _ _ _ _ (hb a4 (by tauto)) (hb a5 (by tauto))
      (hb a6 (by tauto)) (hb a7 (by tauto)),
    imc2_mc _ _ _ _ (hb a4 (by tauto)) (hb a5 (by tauto))
      (hb a6 (by tauto)) (hb a7 (by tauto)),
    imc3_mc _ _ _ _ (hb a4 (by tauto)) (hb a5 (by tauto))
      (hb a6 (by tauto)) (hb a7 (by tauto)),
    imc0_mc _ _ _ _ (hb a8 (by tauto)) (hb a9 (by tauto))
      (hb a10 (by tauto)) (hb a11 (by tauto)),
    imc1_mc _ _ _ _ (hb a8 (by tauto)) (hb a9 (by tauto))
      (hb a10 (by tauto)) (hb a11 (by tauto)),
    imc2_mc _ _ _ _ (hb a8 (by tauto)) (hb a9 (by tauto))
      (hb a10 (by tauto)) (hb a11 (by tauto)),
    imc3_mc _ _ _ _ (hb a8 (by tauto)) (hb a9 (by tauto))
      (hb a10 (by tauto)) (hb a11 (by tauto)),
    imc0_mc _ _ _ _ (hb a12 (by tauto)) (hb a13 (by tauto))
      (hb a14 (by tauto)) (hb a15 (by tauto)),
    imc1_mc _ _ _ _ (hb a12 (by tauto)) (hb a13 (by tauto))
      (hb a14 (by tauto)) (hb a15 (by tauto)),
    imc2_mc _ _ _ _ (hb a12 (by tauto)) (hb a13 (by tauto))
      (hb a14 (by tauto)) (hb a15 (by tauto)),
    imc3_mc _ _ _ _ (hb a12 (by tauto)) (hb a13 (by tauto))
      (hb a14 (by tauto)) (hb a15 (by tauto))]

theorem subBytes_valid (s : List Nat) (hv : ValidBlock s) :
    ValidBlock (subBytes s) := by
  refine ⟨by simp [subBytes, hv.1], ?_⟩
  intro b hbm
  simp only [subBytes, List.mem_map] at hbm
  obtain ⟨a, ha, rfl⟩ := hbm
  exact sb_lt a (hv.2 a ha)

theorem shiftRows_valid (s : List Nat) (hv : ValidBlock s) :
    ValidBlock (shiftRows s) := by
  obtain ⟨a0, a1, a2, a3, a4, a5, a6, a7, a8, a9, a10, a11, a12, a13, a14,
    a15, rfl⟩ := block16 s hv.1
  have hb := hv.2
  simp only [List.mem_cons, List.not_mem_nil, or_false] at hb
  refine ⟨rfl, ?_⟩
  intro b hbm
  simp only [shiftRows, List.mem_cons, List.not_mem_nil, or_false] at hbm
  rcases hbm with h | h | h | h | h | h | h | h | h | h | h | h | h | h
    | h | h <;> subst h <;> exact hb _ (by tauto)

theorem mixColumns_valid (s : List Nat) (hv : ValidBlock s) :
    ValidBlock (mixColumns s) := by
  obtain ⟨a0, a1, a2, a3, a4, a5, a6, a7, a8, a9, a10, a11, a12, a13, a14,
    a15, rfl⟩ := block16 s hv.1
  have hb := hv.2
  simp only [List.mem_cons, List.not_mem_nil, or_false] at hb
  refine ⟨rfl, ?_⟩
  intro b hbm
  simp only [mixColumns, List.mem_cons, List.not_mem_nil, or_false] at hbm
  rcases hbm with h | h | h | h | h | h | h | h | h | h | h | h | h | h
    | h | h <;> subst h
  · exact mc0_lt _ _ _ _ (hb a1 (by tauto)) (hb a2 (by tauto))
      (hb a3 (by tauto))
  · exact mc1_lt _ _ _ _ (hb a0 (by tauto)) (hb a2 (by tauto))
      (hb a3 (by tauto))
  · exact mc2_lt _ _ _ _ (hb a0 (by tauto)) (hb a1 (by tauto))
      (hb a3 (by tauto))
  · exact mc3_lt _ _ _ _ (hb a0 (by tauto)) (hb a1 (by tauto))
      (hb a2 (by tauto))
  · exact mc0_lt _ _ _ _ (hb a5 (by tauto)) (hb a6 (by tauto))
      (hb a7 (by tauto))
  · exact mc1_lt _ _ _ _ (hb a4 (by tauto)) (hb a6 (by tauto))
      (hb a7 (by tauto))
  · exact mc2_lt _ _ _ _ (hb a4 (by tauto)) (hb a5 (by tauto))
      (hb a7 (by tauto))
  · exact mc3_lt _ _ _ _ (hb a4 (by tauto)) (hb a5 (by tauto))
      (hb a6 (by tauto))
  · exact mc0_lt _ _ _ _ (hb a9 (by tauto)) (hb a10 (by tauto))
      (hb a11 (by tauto))
  · exact mc1_lt _ _ _ _ (hb a8 (by tauto)) (hb a10 (by tauto))
      (hb a11 (by tauto))
  · exact mc2_lt _ _ _ _ (hb a8 (by tauto)) (hb a9 (by tauto))
      (hb a11 (by tauto))
  · exact mc3_lt _ _ _ _ (hb a8 (by tauto)) (hb a9 (by tauto))
      (hb a10 (by tauto))
  · exact mc0_lt _ _ _ _ (hb a13 (by tauto)) (hb a14 (by tauto))
      (hb a15 (by tauto))
  · exact mc1_lt _ _ _ _ (hb a12 (by tauto)) (hb a14 (by tauto))
      (hb a15 (by tauto))
  · exact mc2_lt _ _ _ _ (hb a12 (by tauto)) (hb a13 (by tauto))
      (hb a15 (by tauto))
  · exact mc3_lt _ _ _ _ (hb a12 (by tauto)) (hb a13 (by tauto))
      (hb a14 (by tauto))

/-! ## The AES round structure -/

/-- The AES encryption rounds after the initial AddRoundKey: one middle
round per key except the last, which is the final round (no MixColumns). -/
def encRounds : List (List Nat) → List Nat → List Nat
  | [], s => s
  | [k], s => addRK k (shiftRows (subBytes s))
  | k :: k2 :: ks, s =>
      encRounds (k2 :: ks) (addRK k (mixColumns (shiftRows (subBytes s))))

/-- The inverse of `encRounds`, undoing the rounds in reverse order. -/
def decRounds : List (List Nat) → List Nat → List Nat
  | [], s => s
  | [k], s => invSubBytes (invShiftRows (addRK k s))
  | k :: k2 :: ks, s =>
      invSubBytes (invShiftRows (invMixColumns (addRK k
        (decRounds (k2 :: ks) s))))

/-- AES block encryption for a given round-key schedule. -/
def encryptBlock (ks : List (List Nat)) (s : List Nat) : List Nat :=
  match ks with
  | [] => s
  | k0 :: rest => encRounds rest (addRK k0 s)

/-- AES block decryption for a given round-key schedule. -/
def decryptBlock (ks : List (List Nat)) (s : List Nat) : List Nat :=
  match ks with
  | [] => s
  | k0 :: rest => addRK k0 (decRounds rest s)

theorem decRounds_encRounds : ∀ (ks : List (List Nat)) (s : List Nat),
    (∀ k ∈ ks, ValidBlock k) → ValidBlock s →
    decRounds ks (encRounds ks s) = s
  | [], _, _, _ => rfl
  | [k], s, hks, hs => by
      have hk : ValidBlock k := hks k (by simp)
      have h1 := subBytes_valid s hs
      have h2 := shiftRows_valid _ h1
      simp only [encRounds, decRounds]
      rw [addRK_addRK k _ (by rw [hk.1, h2.1]),
        invShiftRows_shiftRows _ h1.1, invSubBytes_subBytes _ hs.2]
  | k :: k2 :: ks, s, hks, hs => by
      have hk : ValidBlock k := hks k (by simp)
      have h1 := subBytes_valid s hs
      have h2 := shiftRows_valid _ h1
      have h3 := mixColumns_valid _ h2
      simp only [encRounds, decRounds]
      rw [decRounds_encRounds (k2 :: ks) _
          (fun x hx => hks x (by simp [hx])) (addRK_valid k _ hk h3),
        addRK_addRK k _ (by rw [hk.1, h3.1]),
        invMixColumns_mixColumns _ h2,
        invShiftRows_shiftRows _ h1.1, invSubBytes_subBytes _ hs.2]

/-- AES block decryption inverts AES block encryption under any schedule
of valid round keys. -/
theorem decryptBlock_encryptBlock (ks : List (List Nat)) (s : List Nat)
    (hks : ∀ k ∈ ks, ValidBlock k) (hs : ValidBlock s) :
    decryptBlock ks (encryptBlock ks s) = s := by
  cases ks with
  | nil => rfl
  | cons k0 rest =>
      simp only [encryptBlock, decryptBlock]
      rw [decRounds_encRounds rest _ (fun x hx => hks x (by simp [hx]))
          (addRK_valid k0 s (hks k0 (by simp)) hs),
        addRK_addRK k0 s ((hks k0 (by simp)).1.trans hs.1.symm)]

theorem encRounds_valid : ∀ (ks : List (List Nat)) (s : List Nat),
    (∀ k ∈ ks, ValidBlock k) → ValidBlock s → ValidBlock (encRounds ks s)
  | [], _, _, hs => hs
  | [k], s, hks, hs =>
      addRK_valid k _ (hks k (by simp))
        (shiftRows_valid _ (subBytes_valid s hs))
  | k :: k2 :: ks, s, hks, hs => by
      refine encRounds_valid (k2 :: ks) _
        (fun x hx => hks x (by simp [hx])) ?_
      exact addRK_valid k _ (hks k (by simp))
        (mixColumns_valid _ (shiftRows_valid _ (subBytes_valid s hs)))

theorem encryptBlock_valid (ks : List (List Nat)) (s : List Nat)
    (hks : ∀ k ∈ ks, ValidBlock k) (hs : ValidBlock s) :
    ValidBlock (encryptBlock ks s) := by
  cases ks with
  | nil => exact hs
  | cons k0 rest =>
      exact encRounds_valid rest _ (fun x hx => hks x (by simp [hx]))
        (addRK_valid k0 s (hks k0 (by simp)) hs)

/-! ## AES-256 key expansion -/

/-- Xor two words (4-byte lists). -/
def wxor (a b : List Nat) : List Nat := List.zipWith Nat.xor a b

/-- Rotate a 4-byte word left by one byte. -/
def rotWord : List Nat → List Nat
  | [a, b, c, d] => [b, c, d, a]
  | w => w

/-- Apply the S-box to each byte of a word. -/
def subWord (w : List Nat) : List Nat := w.map sb

/-- The round-constant word for round `j` (for AES-256, `j` runs 1..7). -/
def rconWord (j : Nat) : List Nat := [2 ^ (j - 1) % 256, 0, 0, 0]

/-- The next word of the expanded key schedule, given the words so far. -/
def nextWord (ws : List (List Nat)) : List Nat :=
  let i := ws.length
  let prev := ws.getD (i - 1) []
  let old := ws.getD (i - 8) []
  if i % 8 = 0 then wxor old (wxor (subWord (rotWord prev)) (rconWord (i / 8)))
  else if i % 8 = 4 then wxor old (subWord prev)
  else wxor old prev

/-- Append `n` more expanded-key words. -/
def expandWords : Nat → List (List Nat) → List (List Nat)
  | 0, ws => ws
  | n + 1, ws => expandWords n (ws ++ [nextWord ws])

/-- The eight initial words of an AES-256 key (32 bytes). -/
def initWords (key : List Nat) : List (List Nat) :=
  (List.range 8).map (fun i => ((key.drop (4 * i)).take 4))

/-- Concatenate schedule words back into bytes. -/
def wordsBytes : List (List Nat) → List Nat
  | [] => []
  | w :: ws => w ++ wordsBytes ws

/-- The 15 round keys (16 bytes each) of the AES-256 key schedule. -/
def roundKeys (key : List Nat) : List (List Nat) :=
  let bs := wordsBytes (expandWords 52 (initWords key))
  (List.range 15).map (fun r => ((bs.drop (16 * r)).take 16))

/-- A valid schedule word: 4 bytes. -/
def ValidWord (w : List Nat) : Prop := w.length = 4 ∧ ∀ b ∈ w, b < 256

theorem wxor_valid (a b : List Nat) (ha : ValidWord a) (hb : ValidWord b) :
    ValidWord (wxor a b) :=
  ⟨by simp [wxor, ha.1, hb.1], zip_xor_valid a b ha.2 hb.2⟩

theorem rotWord_valid (w : List Nat) (h : ValidWord w) :
    ValidWord (rotWord w) := by
  obtain ⟨hl, hb⟩ := h
  match w, hl with
  | [a, b, c, d], _ =>
    simp only [List.mem_cons, List.not_mem_nil, or_false] at hb
    refine ⟨rfl, ?_⟩
    intro x hx
    simp only [rotWord, List.mem_cons, List.not_mem_nil, or_false] at hx
    rcases hx with h | h | h | h <;> subst h <;> exact hb _ (by tauto)

theorem subWord_valid (w : List Nat) (h : ValidWord w) :
    ValidWord (subWord w) := by
  refine ⟨by simp [subWord, h.1], ?_⟩
  intro b hbm
  simp only [subWord, List.mem_map] at hbm
  obtain ⟨a, ha, rfl⟩ := hbm
  exact sb_lt a (h.2 a ha)

theorem rconWord_valid (j : Nat) : ValidWord (rconWord j) := by
  refine ⟨rfl, ?_⟩
  intro b hbm
  simp only [rconWord, List.mem_cons, List.not_mem_nil, or_false] at hbm
  rcases hbm with h | h | h | h <;> subst h <;> first
    | exact Nat.mod_lt _ (by omega)
    | omega

theorem nextWord_valid (ws : List (List Nat))
    (h : ∀ w ∈ ws, ValidWord w) (hne : ws ≠ []) :
    ValidWord (nextWord ws) := by
  have hlen : 0 < ws.length := by
    cases ws with
    | nil => exact absurd rfl hne
    | cons a l => simp
  have h1 : ws.length - 1 < ws.length := by omega
  have h8 : ws.length - 8 < ws.length := by omega
  have hprev : ValidWord (ws.getD (ws.length - 1) []) := by
    rw [List.getD_eq_getElem ws [] h1]
    exact h _ (List.getElem_mem h1)
  have hold : ValidWord (ws.getD (ws.length - 8) []) := by
    rw [List.getD_eq_getElem ws [] h8]
    exact h _ (List.getElem_mem h8)
  simp only [nextWord]
  split
  · exact wxor_valid _ _ hold
      (wxor_valid _ _ (subWord_valid _ (rotWord_valid _ hprev))
        (rconWord_valid _))
  · split
    · exact wxor_valid _ _ hold (subWord_valid _ hprev)
    · exact wxor_valid _ _ hold hprev

theorem expandWords_length :
    ∀ (n : Nat) (ws : List (List Nat)),
      (expandWords n ws).length = ws.length + n
  | 0, _ => rfl
  | n + 1, ws => by
      simp only [expandWords]
      rw [expandWords_length n]
      simp
      omega

theorem expandWords_valid :
    ∀ (n : Nat) (ws : List (List Nat)), ws ≠ [] →
      (∀ w ∈ ws, ValidWord w) → ∀ w ∈ expandWords n ws, ValidWord w
  | 0, _, _, h => h
  | n + 1, ws, hne, h => by
      simp only [expandWords]
      refine expandWords_valid n _ (by simp) ?_
      intro w hw
      rcases List.mem_append.mp hw with hw | hw
      · exact h w hw
      · simp only [List.mem_singleton] at hw
        subst hw
        exact nextWord_valid ws h hne

theorem initWords_valid (key : List Nat) (hlen : key.length = 32)
    (hb : ∀ b ∈ key, b < 256) : ∀ w ∈ initWords key, ValidWord w := by
  intro w hw
  simp only [initWords, List.mem_map, List.mem_range] at hw
  obtain ⟨i, hi, rfl⟩ := hw
  constructor
  · simp [hlen]
    omega
  · intro b hbm
    exact hb b (List.mem_of_mem_drop (List.mem_of_mem_take hbm))

theorem wordsBytes_length :
    ∀ (ws : List (List Nat)), (∀ w ∈ ws, ValidWord w) →
      (wordsBytes ws).length = 4 * ws.length
  | [], _ => rfl
  | w :: ws, h => by
      simp only [wordsBytes, List.length_append, List.length_cons]
      rw [(h w (by simp)).1, wordsBytes_length ws
        (fun x hx => h x (by simp [hx]))]
      omega

theorem wordsBytes_lt :
    ∀ (ws : List (List Nat)), (∀ w ∈ ws, ValidWord w) →
      ∀ b ∈ wordsBytes ws, b < 256
  | [], _ => by simp [wordsBytes]
  | w :: ws, h => by
      intro b hbm
      rcases List.mem_append.mp hbm with hm | hm
      · exact (h w (by simp)).2 b hm
      · exact wordsBytes_lt ws (fun x hx => h x (by simp [hx])) b hm

/-- Every AES-256 round key is a valid 16-byte block. -/
theorem roundKeys_valid (key : List Nat) (hlen : key.length = 32)
    (hb : ∀ b ∈ key, b < 256) : ∀ k ∈ roundKeys key, ValidBlock k := by
  intro k hk
  have hiw : ∀ w ∈ initWords key, ValidWord w := initWords_valid key hlen hb
  have hiwlen : (initWords key).length = 8 := by simp [initWords]
  have hwords : ∀ w ∈ expandWords 52 (initWords key), ValidWord w :=
    expandWords_valid 52 _ (by
      intro hcon
      rw [hcon] at hiwlen
      simp at hiwlen) hiw
  have hblen : (wordsBytes (expandWords 52 (initWords key))).length = 240 := by
    rw [wordsBytes_length _ hwords, expandWords_length, hiwlen]
  simp only [roundKeys, List.mem_map, List.mem_range] at hk
  obtain ⟨r, hr, rfl⟩ := hk
  constructor
  · simp [hblen]
    omega
  · intro b hbm
    exact wordsBytes_lt _ hwords b
      (List.mem_of_mem_drop (List.mem_of_mem_take hbm))

/-! ## Cipher-block chaining (as in forge AES-CBC) -/

/-- Split a byte string into 16-byte blocks (last block possibly short),
with explicit fuel so that the definition is structural. -/
def toBlocksF : Nat → List Nat → List (List Nat)
  | 0, _ => []
  | _, [] => []
  | fuel + 1, x :: rest =>
      (x :: rest.take 15) :: toBlocksF fuel (rest.drop 15)

/-- Split a byte string into 16-byte blocks (last block possibly short). -/
def toBlocks (l : List Nat) : List (List Nat) := toBlocksF l.length l

/-- CBC encryption of a list of plaintext blocks. -/
def cbcEnc (ks : List (List Nat)) : List Nat → List (List Nat) →
    List (List Nat)
  | _, [] => []
  | prev, p :: ps =>
      let c := encryptBlock ks (addRK prev p)
      c :: cbcEnc ks c ps

/-- CBC decryption of a list of ciphertext blocks. -/
def cbcDec (ks : List (List Nat)) : List Nat → List (List Nat) →
    List (List Nat)
  | _, [] => []
  | prev, c :: cs => addRK prev (decryptBlock ks c) :: cbcDec ks c cs

theorem cbcDec_cbcEnc (ks : List (List Nat)) :
    ∀ (prev : List Nat) (ps : List (List Nat)),
      (∀ k ∈ ks, ValidBlock k) → ValidBlock prev →
      (∀ p ∈ ps, ValidBlock p) →
      cbcDec ks prev (cbcEnc ks prev ps) = ps
  | _, [], _, _, _ => rfl
  | prev, p :: ps, hks, hprev, hps => by
      have hp : ValidBlock p := hps p (by simp)
      have hxp : ValidBlock (addRK prev p) := addRK_valid _ _ hprev hp
      have hc : ValidBlock (encryptBlock ks (addRK prev p)) :=
        encryptBlock_valid ks _ hks hxp
      simp only [cbcEnc, cbcDec, List.cons.injEq]
      constructor
      · rw [decryptBlock_encryptBlock ks _ hks hxp,
          addRK_addRK _ _ (by rw [hprev.1, hp.1])]
      · exact cbcDec_cbcEnc ks _ ps hks hc
          (fun x hx => hps x (by simp [hx]))

theorem cbcEnc_valid (ks : List (List Nat)) :
    ∀ (prev : List Nat) (ps : List (List Nat)),
      (∀ k ∈ ks, ValidBlock k) → ValidBlock prev →
      (∀ p ∈ ps, ValidBlock p) →
      ∀ c ∈ cbcEnc ks prev ps, ValidBlock c
  | _, [], _, _, _ => by simp [cbcEnc]
  | prev, p :: ps, hks, hprev, hps => by
      intro c hc
      have hxp : ValidBlock (addRK prev p) :=
        addRK_valid _ _ hprev (hps p (by simp))
      have henc : ValidBlock (encryptBlock ks (addRK prev p)) :=
        encryptBlock_valid ks _ hks hxp
      simp only [cbcEnc, List.mem_cons] at hc
      rcases hc with rfl | hc
      · exact henc
      · exact cbcEnc_valid ks _ ps hks henc
          (fun x hx => hps x (by simp [hx])) c hc

theorem wordsBytes_length16 :
    ∀ (bs : List (List Nat)), (∀ b ∈ bs, b.length = 16) →
      (wordsBytes bs).length = 16 * bs.length
  | [], _ => rfl
  | b :: bs, h => by
      simp only [wordsBytes, List.length_append, List.length_cons]
      rw [h b (by simp), wordsBytes_length16 bs
        (fun x hx => h x (by simp [hx]))]
      omega

theorem toBlocksF_nil : ∀ (fuel : Nat), toBlocksF fuel [] = []
  | 0 => rfl
  | _ + 1 => rfl

theorem wordsBytes_toBlocksF : ∀ (fuel : Nat) (l : List Nat),
    l.length ≤ fuel → wordsBytes (toBlocksF fuel l) = l
  | 0, l, h => by
      have : l = [] := List.eq_nil_of_length_eq_zero (by omega)
      subst this
      rfl
  | fuel + 1, [], _ => rfl
  | fuel + 1, x :: rest, h => by
      simp only [toBlocksF, wordsBytes]
      rw [wordsBytes_toBlocksF fuel (rest.drop 15) (by simp at h ⊢; omega)]
      simp [List.take_append_drop]

theorem wordsBytes_toBlocks (l : List Nat) :
    wordsBytes (toBlocks l) = l :=
  wordsBytes_toBlocksF l.length l le_rfl

theorem toBlocksF_wordsBytes : ∀ (fuel : Nat) (bs : List (List Nat)),
    (∀ b ∈ bs, b.length = 16) → 16 * bs.length ≤ fuel →
    toBlocksF fuel (wordsBytes bs) = bs
  | fuel, [], _, _ => toBlocksF_nil fuel
  | fuel, b :: bs, h, hf => by
      have hb : b.length = 16 := h b (by simp)
      cases b with
      | nil => simp at hb
      | cons x xs =>
        have hxs : xs.length = 15 := by simpa using hb
        have hfuel : ∃ f, fuel = f + 1 := by
          refine ⟨fuel - 1, ?_⟩
          simp only [List.length_cons] at hf
          omega
        obtain ⟨f, rfl⟩ := hfuel
        simp only [wordsBytes, List.cons_append, toBlocksF, List.append_eq]
        rw [List.take_left' hxs, List.drop_left' hxs,
          toBlocksF_wordsBytes f bs (fun y hy => h y (by simp [hy]))
            (by simp only [List.length_cons] at hf; omega)]

theorem toBlocks_wordsBytes (bs : List (List Nat))
    (h : ∀ b ∈ bs, b.length = 16) : toBlocks (wordsBytes bs) = bs := by
  unfold toBlocks
  refine toBlocksF_wordsBytes _ bs h ?_
  have := wordsBytes_length16 bs h
  omega

theorem toBlocksF_valid : ∀ (fuel : Nat) (l : List Nat),
    l.length % 16 = 0 → (∀ b ∈ l, b < 256) →
    ∀ blk ∈ toBlocksF fuel l, ValidBlock blk
  | 0, _, _, _ => by simp [toBlocksF]
  | _ + 1, [], _, _ => by simp [toBlocksF]
  | fuel + 1, b :: rest, hm, hb => by
      intro blk hblk
      have hlen : 15 ≤ rest.length := by
        rcases Nat.lt_or_ge rest.length 15 with h | h
        · simp only [List.length_cons] at hm
          omega
        · exact h
      simp only [toBlocksF, List.mem_cons] at hblk
      rcases hblk with rfl | hblk
      · constructor
        · simp
          omega
        · intro x hx
          simp only [List.mem_cons] at hx
          rcases hx with rfl | hx
          · exact hb x (by simp)
          · exact hb x (by simp [List.mem_of_mem_take hx])
      · refine toBlocksF_valid fuel (rest.drop 15) ?_
          (fun y hy => hb y (by simp [List.mem_of_mem_drop hy])) blk hblk
        simp only [List.length_drop]
        simp only [List.length_cons] at hm
        omega

theorem toBlocks_valid (l : List Nat) (hm : l.length % 16 = 0)
    (hb : ∀ b ∈ l, b < 256) : ∀ blk ∈ toBlocks l, ValidBlock blk :=
  toBlocksF_valid l.length l hm hb

/-! ## PKCS#7 padding (pad as forge CBC does; unpad with forge's lax
check, which only rejects a pad count above 64 and otherwise truncates) -/

/-- PKCS#7 padding to a multiple of 16 bytes. -/
def pkcs7pad (m : List Nat) : List Nat :=
  let n := 16 - m.length % 16
  m ++ List.replicate n n

/-- forge's CBC unpad: read the final byte as the pad count, reject it
only when it exceeds `blockSize << 2 = 64`, and truncate that many bytes. -/
def forgeUnpad (m : List Nat) : Option (List Nat) :=
  let n := m.getD (m.length - 1) 0
  if 64 < n then none else some (m.take (m.length - n))

theorem pkcs7pad_length_mod (m : List Nat) :
    (pkcs7pad m).length % 16 = 0 := by
  simp [pkcs7pad]
  omega

theorem pkcs7pad_lt (m : List Nat) (h : ∀ b ∈ m, b < 256) :
    ∀ b ∈ pkcs7pad m, b < 256 := by
  intro b hb
  rcases List.mem_append.mp hb with hm | hm
  · exact h b hm
  · have := List.eq_of_mem_replicate hm
    omega

theorem forgeUnpad_pkcs7pad (m : List Nat) :
    forgeUnpad (pkcs7pad m) = some m := by
  have hn : 0 < 16 - m.length % 16 ∧ 16 - m.length % 16 ≤ 16 := by omega
  simp only [forgeUnpad, pkcs7pad]
  have hlen : (m ++ List.replicate (16 - m.length % 16)
      (16 - m.length % 16)).length = m.length + (16 - m.length % 16) := by
    simp
  rw [hlen]
  have hidx : m.length + (16 - m.length % 16) - 1 ≥ m.length := by omega
  have hget : (m ++ List.replicate (16 - m.length % 16)
      (16 - m.length % 16)).getD (m.length + (16 - m.length % 16) - 1) 0
      = 16 - m.length % 16 := by
    rw [List.getD_eq_getElem _ _ (by simp; omega)]
    rw [List.getElem_append_right (by omega)]
    simp
  rw [hget]
  rw [if_neg (by omega)]
  congr 1
  have : m.length + (16 - m.length % 16) - (16 - m.length % 16)
      = m.length := by omega
  rw [this]
  rw [List.take_left' rfl]

/-! ## Base64 transport encoding (forge.util.encode64 / decode64) -/

/-- The base64 alphabet. -/
def b64chars : List Char :=
  ['A', 'B', 'C', 'D', 'E', 'F', 'G', 'H', 'I', 'J', 'K', 'L', 'M',
   'N', 'O', 'P', 'Q', 'R', 'S', 'T', 'U', 'V', 'W', 'X', 'Y', 'Z',
   'a', 'b', 'c', 'd', 'e', 'f', 'g', 'h', 'i', 'j', 'k', 'l', 'm',
   'n', 'o', 'p', 'q', 'r', 's', 't', 'u', 'v', 'w', 'x', 'y', 'z',
   '0', '1', '2', '3', '4', '5', '6', '7', '8', '9', '+', '/']

/-- The character for a six-bit group. -/
def b64char (s : Nat) : Char := b64chars.getD s '?'

/-- The six-bit value of a base64 character, if any. -/
def b64val (ch : Char) : Option Nat :=
  let i := b64chars.indexOf ch
  if i < 64 then some i else none

/-- Base64 encoding of a byte string, with `=` padding. -/
def base64Encode : List Nat → List Char
  | [] => []
  | [a] => [b64char (a / 4), b64char (a % 4 * 16), '=', '=']
  | [a, b] =>
      [b64char (a / 4), b64char (a % 4 * 16 + b / 16),
       b64char (b % 16 * 4), '=']
  | a :: b :: c :: rest =>
      b64char (a / 4) :: b64char (a % 4 * 16 + b / 16)
        :: b64char (b % 16 * 4 + c / 64) :: b64char (c % 64)
        :: base64Encode rest

/-- Base64 decoding; `none` on any malformed input. -/
def base64Decode : List Char → Option (List Nat)
  | [] => some []
  | c0 :: c1 :: c2 :: c3 :: rest =>
      match b64val c0, b64val c1 with
      | some s0, some s1 =>
          if rest = [] ∧ c3 = '=' then
            if c2 = '=' then some [s0 * 4 + s1 / 16]
            else match b64val c2 with
              | some s2 => some [s0 * 4 + s1 / 16, s1 % 16 * 16 + s2 / 4]
              | none => none
          else match b64val c2, b64val c3, base64Decode rest with
            | some s2, some s3, some bs =>
                some ((s0 * 4 + s1 / 16) :: (s1 % 16 * 16 + s2 / 4)
                  :: (s2 % 4 * 64 + s3) :: bs)
            | _, _, _ => none
      | _, _ => none
  | _ => none

theorem b64val_b64char (s : Nat) (h : s < 64) : b64val (b64char s) = some s := by
  revert s h; decide

theorem b64char_ne_eq (s : Nat) (h : s < 64) : b64char s ≠ '=' := by
  revert s h; decide

theorem base64Encode_ne_nil : ∀ (bs : List Nat), bs ≠ [] →
    base64Encode bs ≠ []
  | [], h => absurd rfl h
  | [_], _ => by simp [base64Encode]
  | [_, _], _ => by simp [base64Encode]
  | _ :: _ :: _ :: _, _ => by simp [base64Encode]

/-- Base64 decoding inverts base64 encoding on byte strings. -/
theorem base64Decode_base64Encode : ∀ (bs : List Nat),
    (∀ b ∈ bs, b < 256) → base64Decode (base64Encode bs) = some bs
  | [], _ => rfl
  | [a], h => by
      have ha : a < 256 := h a (by simp)
      simp only [base64Encode, base64Decode]
      rw [b64val_b64char _ (by omega), b64val_b64char _ (by omega)]
      simp
      omega
  | [a, b], h => by
      have ha : a < 256 := h a (by simp)
      have hb : b < 256 := h b (by simp)
      have hne : b64char (b % 16 * 4) ≠ '=' := b64char_ne_eq _ (by omega)
      simp only [base64Encode, base64Decode]
      rw [b64val_b64char _ (by omega), b64val_b64char _ (by omega),
        b64val_b64char _ (by omega)]
      simp [hne]
      omega
  | a :: b :: c :: d :: rest, h => by
      have ha : a < 256 := h a (by simp)
      have hb : b < 256 := h b (by simp)
      have hc : c < 256 := h c (by simp)
      have hrec := base64Decode_base64Encode (d :: rest)
        (fun x hx => h x (by simp at hx ⊢; tauto))
      have hne1 : base64Encode (d :: rest) ≠ [] :=
        base64Encode_ne_nil _ (by simp)
      simp only [base64Encode, base64Decode]
      rw [b64val_b64char _ (by omega), b64val_b64char _ (by omega),
        b64val_b64char _ (by omega), b64val_b64char _ (by omega), hrec]
      simp [hne1]
      omega
  | [a, b, c], h => by
      have ha : a < 256 := h a (by simp)
      have hb : b < 256 := h b (by simp)
      have hc : c < 256 := h c (by simp)
      have hne3 : b64char (c % 64) ≠ '=' := b64char_ne_eq _ (by omega)
      simp only [base64Encode, base64Decode]
      rw [b64val_b64char _ (by omega), b64val_b64char _ (by omega),
        b64val_b64char _ (by omega), b64val_b64char _ (by omega)]
      simp [hne3]
      omega

/-! ## The secure envelope codec -/

theorem wordsBytes_lt' :
    ∀ (bs : List (List Nat)), (∀ b ∈ bs, ∀ x ∈ b, x < 256) →
      ∀ x ∈ wordsBytes bs, x < 256
  | [], _ => by simp [wordsBytes]
  | b :: bs, h => by
      intro x hx
      rcases List.mem_append.mp hx with hm | hm
      · exact h b (by simp) x hm
      · exact wordsBytes_lt' bs (fun y hy => h y (by simp [hy])) x hm

/-- The byte content of the envelope: the fresh 32-byte IV followed by
the AES-256-CBC ciphertext of the padded payload (the CBC chain is seeded
with the first 16 bytes of the IV string, as forge does). -/
def sealBytes (key iv payload : List Nat) : List Nat :=
  iv ++ wordsBytes
    (cbcEnc (roundKeys key) (iv.take 16) (toBlocks (pkcs7pad payload)))

/-- `seal`: the base64 envelope string (`forge.util.encode64` of IV
concatenated with the ciphertext, exactly as the renderer computes
`INJ`). -/
def envelope (key iv payload : List Nat) : String :=
  String.mk (base64Encode (sealBytes key iv payload))

/-- `open`: base64-decode, split off the 32-byte IV, CBC-decrypt with the
build key and strip the padding; `none` is a decryption error. -/
def openEnvelope (key : List Nat) (env : String) : Option (List Nat) :=
  match base64Decode env.data with
  | none => none
  | some bytes =>
      let iv := bytes.take 32
      let ct := bytes.drop 32
      if ct.length % 16 = 0 then
        forgeUnpad (wordsBytes
          (cbcDec (roundKeys key) (iv.take 16) (toBlocks ct)))
      else none

/-- Opening a sealed envelope with the sealing key recovers the payload. -/
theorem openEnvelope_envelope (key iv payload : List Nat)
    (hkey : key.length = 32) (hkeyb : ∀ b ∈ key, b < 256)
    (hiv : iv.length = 32) (hivb : ∀ b ∈ iv, b < 256)
    (hpay : ∀ b ∈ payload, b < 256) :
    openEnvelope key (envelope key iv payload) = some payload := by
  have hks := roundKeys_valid key hkey hkeyb
  have hiv16 : ValidBlock (iv.take 16) := by
    refine ⟨by simp [hiv], ?_⟩
    intro b hb
    exact hivb b (List.mem_of_mem_take hb)
  have hpblocks : ∀ blk ∈ toBlocks (pkcs7pad payload), ValidBlock blk :=
    toBlocks_valid _ (pkcs7pad_length_mod _) (pkcs7pad_lt _ hpay)
  have hcb : ∀ c ∈ cbcEnc (roundKeys key) (iv.take 16)
      (toBlocks (pkcs7pad payload)), ValidBlock c :=
    cbcEnc_valid _ _ _ hks hiv16 hpblocks
  have hctb : ∀ x ∈ wordsBytes (cbcEnc (roundKeys key) (iv.take 16)
      (toBlocks (pkcs7pad payload))), x < 256 :=
    wordsBytes_lt' _ (fun b hb => (hcb b hb).2)
  have hsealb : ∀ b ∈ sealBytes key iv payload, b < 256 := by
    intro b hb
    rcases List.mem_append.mp hb with hm | hm
    · exact hivb b hm
    · exact hctb b hm
  have hdec : base64Decode (base64Encode (sealBytes key iv payload))
      = some (sealBytes key iv payload) :=
    base64Decode_base64Encode _ hsealb
  simp only [openEnvelope, envelope, String.data]
  rw [hdec]
  simp only [sealBytes]
  rw [List.take_left' hiv, List.drop_left' hiv]
  have hclen : (wordsBytes (cbcEnc (roundKeys key) (iv.take 16)
      (toBlocks (pkcs7pad payload)))).length % 16 = 0 := by
    rw [wordsBytes_length16 _ (fun b hb => (hcb b hb).1)]
    omega
  rw [if_pos hclen]
  rw [toBlocks_wordsBytes _ (fun b hb => (hcb b hb).1)]
  rw [cbcDec_cbcEnc _ _ _ hks hiv16 hpblocks]
  rw [wordsBytes_toBlocks]
  exact forgeUnpad_pkcs7pad payload

/-! ## A model of JSON values (`JSON.parse` / `JSON.stringify`) -/

/-- JSON values (numbers restricted to integers, which is all the
renderer's artifacts use). -/
inductive Json where
  | null : Json
  | bool : Bool → Json
  | num : Int → Json
  | str : String → Json
  | arr : List Json → Json
  | obj : List (String × Json) → Json

/-- Escape a string for a JSON string literal (quote and backslash). -/
def jsonEscapeChar (c : Char) : List Char :=
  if c = '"' then ['\\', '"']
  else if c = '\\' then ['\\', '\\']
  else [c]

/-- JSON string-literal body of a string. -/
def jsonEscape (s : String) : String :=
  String.mk (s.data.foldr (fun c acc => jsonEscapeChar c ++ acc) [])

mutual

/-- `JSON.stringify` (also what `serialize-javascript` emits under its
`isJSON` option, which the renderer uses for the splits map). -/
def stringify : Json → String
  | .null => "null"
  | .bool true => "true"
  | .bool false => "false"
  | .num n => toString n
  | .str s => "\"" ++ jsonEscape s ++ "\""
  | .arr xs => "[" ++ stringifyItems xs ++ "]"
  | .obj fs => "\x7b" ++ stringifyFields fs ++ "\x7d"

def stringifyItems : List Json → String
  | [] => ""
  | [x] => stringify x
  | x :: y :: xs => stringify x ++ "," ++ stringifyItems (y :: xs)

def stringifyFields : List (String × Json) → String
  | [] => ""
  | [(k, v)] => "\"" ++ jsonEscape k ++ "\":" ++ stringify v
  | (k, v) :: f :: fs =>
      "\"" ++ jsonEscape k ++ "\":" ++ stringify v ++ ","
        ++ stringifyFields (f :: fs)

end

theorem stringify_smoke :
    stringify (Json.obj [("a", Json.str "x"), ("b", Json.null)])
      = "\x7b\"a\":\"x\",\"b\":null\x7d" := by decide

/-- The opening-brace character. -/
def lbrace : Char := Char.ofNat 123

/-- The closing-brace character. -/
def rbrace : Char := Char.ofNat 125

/-- Drop leading JSON whitespace. -/
def skipWs : List Char → List Char
  | c :: rest =>
      if c = ' ' ∨ c = '\n' ∨ c = '\t' ∨ c = '\r' then skipWs rest
      else c :: rest
  | [] => []

/-- Parse the body of a JSON string literal after the opening quote. -/
def parseStrBody : List Char → Option (List Char × List Char)
  | [] => none
  | '"' :: rest => some ([], rest)
  | '\\' :: e :: rest =>
      let dec : Option Char :=
        if e = '"' then some '"'
        else if e = '\\' then some '\\'
        else if e = 'n' then some '\n'
        else if e = 't' then some '\t'
        else if e = 'r' then some '\r'
        else if e = '/' then some '/'
        else none
      match dec, parseStrBody rest with
      | some c, some (s, rem) => some (c :: s, rem)
      | _, _ => none
  | c :: rest =>
      match parseStrBody rest with
      | some (s, rem) => some (c :: s, rem)
      | none => none

/-- Parse a run of decimal digits. -/
def parseDigits : List Char → Nat → Nat → Option (Nat × List Char)
  | c :: rest, acc, seen =>
      if '0' ≤ c ∧ c ≤ '9' then
        parseDigits rest (acc * 10 + (c.toNat - 48)) (seen + 1)
      else if seen = 0 then none else some (acc, c :: rest)
  | [], _, 0 => none
  | [], acc, _ + 1 => some (acc, [])

mutual

/-- Parse one JSON value (fuel bounds the nesting depth). -/
def parseVal : Nat → List Char → Option (Json × List Char)
  | 0, _ => none
  | fuel + 1, cs =>
      match skipWs cs with
      | 'n' :: 'u' :: 'l' :: 'l' :: rest => some (.null, rest)
      | 't' :: 'r' :: 'u' :: 'e' :: rest => some (.bool true, rest)
      | 'f' :: 'a' :: 'l' :: 's' :: 'e' :: rest => some (.bool false, rest)
      | '"' :: rest =>
          match parseStrBody rest with
          | some (s, rem) => some (.str (String.mk s), rem)
          | none => none
      | '-' :: rest =>
          match parseDigits rest 0 0 with
          | some (n, rem) => some (.num (-(n : Int)), rem)
          | none => none
      | '[' :: rest =>
          match skipWs rest with
          | ']' :: rem => some (.arr [], rem)
          | cs2 => parseItems fuel cs2 []
      | c :: rest =>
          if c = lbrace then
            match skipWs rest with
            | d :: rem =>
                if d = rbrace then some (.obj [], rem)
                else parseFields fuel (d :: rem) []
            | [] => none
          else if '0' ≤ c ∧ c ≤ '9' then
            match parseDigits (c :: rest) 0 0 with
            | some (n, rem) => some (.num (n : Int), rem)
            | none => none
          else none
      | [] => none

/-- Parse the items of a JSON array (after `[`, at least one item). -/
def parseItems : Nat → List Char → List Json → Option (Json × List Char)
  | 0, _, _ => none
  | fuel + 1, cs, acc =>
      match parseVal fuel cs with
      | some (v, rem) =>
          match skipWs rem with
          | ',' :: rem2 => parseItems fuel rem2 (acc ++ [v])
          | ']' :: rem2 => some (.arr (acc ++ [v]), rem2)
          | _ => none
      | none => none

/-- Parse the fields of a JSON object (after the brace, at least one). -/
def parseFields : Nat → List Char →
    List (String × Json) → Option (Json × List Char)
  | 0, _, _ => none
  | fuel + 1, cs, acc =>
      match skipWs cs with
      | '"' :: rest =>
          match parseStrBody rest with
          | some (k, rem) =>
              match skipWs rem with
              | ':' :: rem2 =>
                  match parseVal fuel rem2 with
                  | some (v, rem3) =>
                      match skipWs rem3 with
                      | ',' :: rem4 =>
                          parseFields fuel rem4 (acc ++ [(String.mk k, v)])
                      | c :: rem4 =>
                          if c = rbrace then
                            some (.obj (acc ++ [(String.mk k, v)]), rem4)
                          else none
                      | [] => none
                  | none => none
              | _ => none
          | none => none
      | _ => none

end

/-- `JSON.parse`: parse a whole string as a single JSON value; `none`
models the `SyntaxError` thrown on data that is not valid JSON. -/
def parseJson (s : String) : Option Json :=
  match parseVal (s.length + 1) s.data with
  | some (j, rem) => if skipWs rem = [] then some j else none
  | none => none

/-! ## UTF-8 encoding (what `forge.util.createBuffer(str, 'utf8')` and
`JSON.stringify` together feed into the cipher) -/

/-- UTF-8 bytes of one code point. -/
def utf8Bytes (c : Char) : List Nat :=
  let n := c.toNat
  if n < 128 then [n]
  else if n < 2048 then [192 + n / 64, 128 + n % 64]
  else if n < 65536 then
    [224 + n / 4096, 128 + n / 64 % 64, 128 + n % 64]
  else [240 + n / 262144, 128 + n / 4096 % 64, 128 + n / 64 % 64,
    128 + n % 64]

/-- UTF-8 encoding of a string. -/
def utf8Encode (s : String) : List Nat :=
  wordsBytes (s.data.map utf8Bytes)

theorem utf8Bytes_lt (c : Char) : ∀ b ∈ utf8Bytes c, b < 256 := by
  intro b hb
  have hval : c.toNat < 1114112 := by
    have h := c.valid
    simp [UInt32.isValidChar, Nat.isValidChar] at h
    unfold Char.toNat
    rcases h with h | h <;> omega
  simp only [utf8Bytes] at hb
  split at hb
  · simp only [List.mem_cons, List.not_mem_nil, or_false] at hb
    omega
  · split at hb
    · simp only [List.mem_cons, List.not_mem_nil, or_false] at hb
      rcases hb with rfl | rfl <;> omega
    · split at hb
      · simp only [List.mem_cons, List.not_mem_nil, or_false] at hb
        rcases hb with rfl | rfl | rfl <;> omega
      · simp only [List.mem_cons, List.not_mem_nil, or_false] at hb
        rcases hb with rfl | rfl | rfl | rfl <;> omega

theorem utf8Encode_lt (s : String) : ∀ b ∈ utf8Encode s, b < 256 := by
  refine wordsBytes_lt' _ ?_
  intro w hw
  simp only [List.mem_map] at hw
  obtain ⟨c, _, rfl⟩ := hw
  exact utf8Bytes_lt c

/-! ## The renderer (src/server/renderer.jsx) -/

/-- A configuration object, as an ordered list of fields. -/
def Config : Type := List (String × Json)

/-- `_.omit(config, 'SECRET')` (line 17): the global config without its
`SECRET` field. -/
def sanitize (cfg : Config) : Config :=
  cfg.filter (fun p => p.1 ≠ "SECRET")

/-- JavaScript truthiness of a JSON value. -/
def jsTruthy : Json → Bool
  | .null => false
  | .bool b => b
  | .num n => n != 0
  | .str s => s ≠ ""
  | .arr _ => true
  | .obj _ => true

/-- JavaScript `a || b` on an optional value (`none` = `undefined`). -/
def jsOr (v : Option Json) (dflt : Json) : Json :=
  match v with
  | some j => if jsTruthy j then j else dflt
  | none => dflt

/-- What the `beforeRender` hook resolves to (all fields optional). -/
structure BeforeRenderResult where
  configToInject : Option Json
  extraScripts : Option (List String)
  store : Option Json

/-- The `\x7bCONFIG, ISTATE\x7d` object the renderer encrypts (lines
126-129): `CONFIG` is `configToInject || sanitizedConfig` and `ISTATE` is
`store ? store.getState() : null` (the store is modelled by its state). -/
def injPayload (cfg : Config) (br : BeforeRenderResult) : Json :=
  Json.obj
    [("CONFIG", jsOr br.configToInject (Json.obj (sanitize cfg))),
     ("ISTATE", match br.store with
       | some st => st
       | none => Json.null)]

/-- The 32 random bytes `forge.random.getBytes(32)` hands to
`prepareCipher`, drawn from the entropy stream at the current position. -/
def ivBytes (entropy : Nat → Nat) (off : Nat) : List Nat :=
  (List.range 32).map (fun i => entropy (off + i) % 256)

theorem ivBytes_length (entropy : Nat → Nat) (off : Nat) :
    (ivBytes entropy off).length = 32 := by simp [ivBytes]

theorem ivBytes_lt (entropy : Nat → Nat) (off : Nat) :
    ∀ b ∈ ivBytes entropy off, b < 256 := by
  intro b hb
  simp only [ivBytes, List.mem_map] at hb
  obtain ⟨i, _, rfl⟩ := hb
  exact Nat.mod_lt _ (by omega)

/-! ## The document template (lines 141-176) -/

/-- `<link data-chunk="..." href="/....css" rel="stylesheet" />` for one
chunk name (lines 134-136).  No manifest lookup is involved. -/
def styleLink (chunk : String) : String :=
  "<link data-chunk=\"" ++ chunk ++ "\" href=\"/" ++ chunk
    ++ ".css\" rel=\"stylesheet\" />"

/-- `context.chunks.map(...).join('')` (lines 134-136). -/
def stylesString (chunks : List String) : String :=
  String.join (chunks.map styleLink)

/-- `extraScripts ? extraScripts.join('') : ''` (line 169). -/
def joinExtras : Option (List String) → String
  | some es => String.join es
  | none => ""

def docPart1 : String := "<!DOCTYPE html>\n      <html>\n        <head>\n          "

def docPart2 : String := "\n          "

def docPart3 (publicPath : String) : String :=
  "\n          <link\n            href=\"" ++ publicPath
    ++ "main.css\"\n            rel=\"stylesheet\"\n          />\n          "

def docPart4 : String :=
  "\n          <link rel=\"shortcut icon\" href=\"/favicon.ico\" />\n          <meta charset=\"utf-8\" />\n          <meta\n            content=\"width=device-width,initial-scale=1.0\"\n            name=\"viewport\"\n          />\n        </head>\n        <body>\n          <div id=\"react-view\">"

def docPart5 : String :=
  "</div>\n          <script id=\"inj\" type=\"application/javascript\">\n            window.SPLITS = "

def docPart6 : String := "\n            window.INJ=\""

def injClose : String := "\"\n          </script>\n          "

/-- The polyfills script tag (lines 165-168). -/
def scriptPolyfills (publicPath : String) : String :=
  "<script\n            src=\"" ++ publicPath
    ++ "polyfills.js\"\n            type=\"application/javascript\"\n          ></script>"

def scriptGap : String := "\n          "

/-- The main script tag (lines 170-173; the template has a stray blank
after `main.js"`). -/
def scriptMain (publicPath : String) : String :=
  "<script\n            src=\"" ++ publicPath
    ++ "main.js\" \n            type=\"application/javascript\"\n          ></script>"

def docTail : String := "\n        </body>\n      </html>"

def docPart7 (publicPath : String) : String :=
  injClose ++ scriptPolyfills publicPath ++ scriptGap

def docPart8 (publicPath : String) : String :=
  scriptGap ++ scriptMain publicPath ++ docTail

/-- The assembled HTML document (the template of lines 141-176): head
block, main stylesheet, per-chunk stylesheet links, icon and meta tags,
the root `react-view` div holding the root markup, the inline script
exposing `window.SPLITS` (serialized splits map) and `window.INJ` (the
envelope), the polyfills script, the caller-supplied extra scripts, and
the main script. -/
def assembleDocument (publicPath title meta : String)
    (chunks : List String) (splits : Json) (inj : String)
    (rootMarkup : String) (extraScripts : Option (List String)) : String :=
  docPart1 ++ title ++ docPart2 ++ meta ++ docPart3 publicPath
    ++ stylesString chunks ++ docPart4 ++ rootMarkup ++ docPart5
    ++ stringify splits ++ docPart6 ++ inj ++ docPart7 publicPath
    ++ joinExtras extraScripts ++ docPart8 publicPath

/-! ## The request handler (lines 77-177) -/

/-- Everything the handler did to the response and to the entropy pool.
The handler of the sources takes `(req, res)` only - it declares no
error-callback parameter and contains no catch, so `errorCallbackCalls`
is identically 0, and a failed awaited promise leaves `result` an
error with nothing sent. -/
structure HandlerOutput where
  statusCalls : List Nat
  sent : List String
  errorCallbackCalls : Nat
  result : Except String Unit
  nextEntropyOffset : Nat

/-- One request through the handler (lines 77-177).

* `cfg` - the global `config` object (line 17 sanitizes it once);
* `buildKey` - `buildInfo.key` as bytes;
* `publicPath` - `webpackConfig.output.publicPath`;
* `appPresent` - whether `options.Application` was given; the shipped
  renderer interpolates the wrapped React element straight into the
  template (line 160), and a JavaScript object interpolates as the string
  `[object Object]` - it never calls a render-to-string primitive;
* `helmetTitle`, `helmetMeta` - what `Helmet.renderStatic()` returns
  (external collaborator), used only when an application is given;
* `brFn` - the `beforeRender` hook (defaulted by lines 73-75 to resolve
  to an empty object); an `Except.error` is a rejected promise;
* `entropy`, `off` - the random-byte stream and the position
  `prepareCipher` consumes it from.

The per-request context of lines 92-98 starts with `chunks = []` and
`splits = \x7b\x7d`, and since the handler never invokes any rendering
primitive, nothing ever mutates it: the stylesheet list, the splits map
and `context.status` keep their initial values. -/
def handleRequest (cfg : Config) (buildKey : List Nat)
    (publicPath : String) (appPresent : Bool)
    (helmetTitle helmetMeta : String)
    (brFn : String → Config → Except String BeforeRenderResult)
    (entropy : Nat → Nat) (off : Nat) (reqUrl : String) : HandlerOutput :=
  match brFn reqUrl (sanitize cfg) with
  | .error e =>
      { statusCalls := []
        sent := []
        errorCallbackCalls := 0
        result := .error e
        nextEntropyOffset := off + 32 }
  | .ok br =>
      let iv := ivBytes entropy off
      let inj := envelope buildKey iv
        (utf8Encode (stringify (injPayload cfg br)))
      let doc := assembleDocument publicPath
        (if appPresent then helmetTitle else "")
        (if appPresent then helmetMeta else "")
        [] (Json.obj []) inj
        (if appPresent then "[object Object]" else "")
        br.extraScripts
      { statusCalls := []
        sent := [doc]
        errorCallbackCalls := 0
        result := .ok ()
        nextEntropyOffset := off + 32 }

/-! ## The factory (lines 29-37 and 67-70) -/

/-- The two start-up failure modes of `getBuildInfo`: the file-system
error of a missing `.build-info` (the promise rejects with it) and the
`SyntaxError` of `JSON.parse` on corrupt content. -/
inductive BuildError where
  | missing : BuildError
  | corrupt : BuildError
deriving DecidableEq

/-- `getBuildInfo` (lines 29-37): read `.build-info` under the Webpack
context and `JSON.parse` it.  `fs` models the file system. -/
def getBuildInfo (fs : String → Option String) (context : String) :
    Except BuildError Json :=
  match fs (context ++ "/.build-info") with
  | none => .error .missing
  | some content =>
      match parseJson content with
      | none => .error .corrupt
      | some j => .ok j

/-- What the resolved factory closes over. -/
structure FactoryState where
  buildInfo : Json
  publicPath : String

/-- The factory (lines 67-76): awaits `getBuildInfo` - so its promise
rejects, and no request handler is ever produced, when the build info is
missing or corrupt. -/
def factoryResult (fs : String → Option String)
    (wpContext wpPublicPath : String) : Except BuildError FactoryState :=
  match getBuildInfo fs wpContext with
  | .error e => .error e
  | .ok j => .ok { buildInfo := j, publicPath := wpPublicPath }

/-! ## The multi-round renderer of the spec

The render loop itself is not part of the sources under verification:
the shipped `src/server/renderer.jsx` performs no render rounds at all
(it never invokes a render-to-string primitive), and `maxSsrRounds` is
referred to only by the package's tests and by the server launcher's
documentation.  The state machine below is therefore modelled from the
spec (section 4.4). -/

/-- Terminal states of the multi-round renderer. -/
inductive SsrOutcome where
  | STABLE : SsrOutcome
  | BUDGET_EXHAUSTED : SsrOutcome
  | ROUND_LIMIT_ZERO : SsrOutcome
deriving DecidableEq

/-- The per-request context threaded through render rounds. -/
structure SsrCtx where
  markup : String
  chunks : List String
  splits : Json

/-- The context a request starts from: no markup, no chunks, no splits. -/
def initSsrCtx : SsrCtx :=
  { markup := "", chunks := [], splits := Json.obj [] }

/-- Modelled from the spec: the render loop of section 4.4.  One
iteration invokes the render primitive; if the registry is stable the
loop ends in `STABLE`; otherwise the round counter is incremented and
the loop ends in `BUDGET_EXHAUSTED` once it reaches the budget.  Returns
the terminal state, the final context and the number of render
invocations made. -/
def ssrLoop (render : SsrCtx → SsrCtx) (isStable : SsrCtx → Bool) :
    Nat → Nat → SsrCtx → SsrOutcome × SsrCtx × Nat
  | 0, done, ctx => (.BUDGET_EXHAUSTED, ctx, done)
  | remaining + 1, done, ctx =>
      let ctx2 := render ctx
      if isStable ctx2 then (.STABLE, ctx2, done + 1)
      else if remaining = 0 then (.BUDGET_EXHAUSTED, ctx2, done + 1)
      else ssrLoop render isStable remaining (done + 1) ctx2

/-- Modelled from the spec: the multi-round renderer (section 4.4).
`maxSsrRounds = 0` means no server-side rendering is attempted at all
and the tree is skipped entirely - terminal `ROUND_LIMIT_ZERO`. -/
def runSsr (render : SsrCtx → SsrCtx) (isStable : SsrCtx → Bool)
    (maxSsrRounds : Nat) (ctx0 : SsrCtx) : SsrOutcome × SsrCtx × Nat :=
  if maxSsrRounds = 0 then (.ROUND_LIMIT_ZERO, ctx0, 0)
  else ssrLoop render isStable maxSsrRounds 0 ctx0

/-- Modelled from the spec: the document a request is answered with -
the document assembler applied to what the multi-round renderer
produced. -/
def ssrDocument (render : SsrCtx → SsrCtx) (isStable : SsrCtx → Bool)
    (maxSsrRounds : Nat) (publicPath title meta inj : String)
    (extraScripts : Option (List String)) : String :=
  let r := runSsr render isStable maxSsrRounds initSsrCtx
  assembleDocument publicPath title meta r.2.1.chunks r.2.1.splits inj
    r.2.1.markup extraScripts

/-! ## Substring occurrence -/

/-- Does `pat` occur (contiguously) in `hay`? -/
def occursIn (hay pat : List Char) : Bool :=
  if pat.isPrefixOf hay then true
  else
    match hay with
    | [] => false
    | _ :: t => occursIn t pat

/-- Does `pat` occur in the string `hay`? -/
def strOccurs (hay pat : String) : Bool := occursIn hay.data pat.data

/-- Index of the first occurrence of `pat` in `hay`, if any. -/
def firstIdx (hay pat : List Char) : Option Nat :=
  if pat.isPrefixOf hay then some 0
  else
    match hay with
    | [] => none
    | _ :: t => (firstIdx t pat).map (· + 1)

/-- Does `pat2` occur strictly after the end of the first occurrence of
`pat1` in `hay`? -/
def occursAfterFirst (hay pat1 pat2 : String) : Bool :=
  match firstIdx hay.data pat1.data with
  | none => false
  | some i => occursIn ((hay.data.drop (i + pat1.data.length))) pat2.data

/-! ## The claims -/

/-- Concrete data for exercising the envelope codec. -/
def exKey : List Nat := List.range 32

/-- A 32-byte key differing from `exKey`. -/
def exWrongKey : List Nat := (List.range 32).map (fun i => (i + 5) % 256)

/-- A concrete 32-byte IV draw. -/
def exIv : List Nat := (List.range 32).map (fun i => (7 * i + 3) % 256)

/-- A concrete payload ("hi"). -/
def exPayload : List Nat := [104, 105]

/-- What opening the envelope with the wrong key actually returns. -/
def exGarbage : List Nat :=
  [250, 79, 222, 52, 69, 153, 201, 10, 195, 25, 77, 203, 97, 199, 97]

/-- C1 (counterexample): decrypting under a wrong key K' is NOT
guaranteed to fail.  forge's CBC unpad validates nothing but a bound on
the final pad-count byte, so with the wrong key below, `open` silently
returns garbage instead of a decryption error. -/
theorem c1_wrong_key_counterexample :
    exWrongKey ≠ exKey
      ∧ openEnvelope exWrongKey (envelope exKey exIv exPayload)
          = some exGarbage
      ∧ exGarbage ≠ exPayload := by
  refine ⟨by decide, by decide, by decide⟩

/-- C1 (amended): for every byte payload P and valid 32-byte key K,
opening the envelope sealed under K with the same key K recovers exactly
P.  (The wrong-key clause of the claim had to be dropped: AES-CBC with
forge's padding check carries no integrity protection, so a wrong key
can yield a successful-looking garbage payload - see the
counterexample.) -/
theorem c1_envelope_roundtrip (key iv payload : List Nat)
    (hkey : key.length = 32) (hkeyb : ∀ b ∈ key, b < 256)
    (hiv : iv.length = 32) (hivb : ∀ b ∈ iv, b < 256)
    (hpay : ∀ b ∈ payload, b < 256) :
    openEnvelope key (envelope key iv payload) = some payload :=
  openEnvelope_envelope key iv payload hkey hkeyb hiv hivb hpay

/-- Witness for C1's round-trip theorem at concrete key, IV, payload. -/
theorem c1_envelope_roundtrip_witness :
    exKey.length = 32 ∧ exIv.length = 32
      ∧ openEnvelope exKey (envelope exKey exIv exPayload)
          = some exPayload :=
  ⟨by decide, by decide,
    c1_envelope_roundtrip exKey exIv exPayload (by decide) (by decide)
      (by decide) (by decide) (by decide)⟩

/-- C2: on every request the injected envelope string is exactly the
base64 encoding of the 32 fresh entropy bytes drawn at the current
stream position, concatenated with the AES-256-CBC ciphertext (under the
build key, chained from the IV) of the UTF-8 JSON serialization of the
payload; the call consumes entropy positions [off, off+32), so the next
request draws a disjoint 32-byte segment - no IV bytes are reused. -/
theorem c2_envelope_string (cfg : Config) (buildKey : List Nat)
    (publicPath : String) (appPresent : Bool)
    (helmetTitle helmetMeta : String)
    (brFn : String → Config → Except String BeforeRenderResult)
    (entropy : Nat → Nat) (off : Nat) (reqUrl : String)
    (br : BeforeRenderResult)
    (hbr : brFn reqUrl (sanitize cfg) = .ok br) :
    (handleRequest cfg buildKey publicPath appPresent helmetTitle
        helmetMeta brFn entropy off reqUrl).sent
      = [assembleDocument publicPath
          (if appPresent then helmetTitle else "")
          (if appPresent then helmetMeta else "")
          [] (Json.obj [])
          (String.mk (base64Encode (ivBytes entropy off
            ++ wordsBytes (cbcEnc (roundKeys buildKey)
              ((ivBytes entropy off).take 16)
              (toBlocks (pkcs7pad (utf8Encode (stringify
                (injPayload cfg br)))))))))
          (if appPresent then "[object Object]" else "")
          br.extraScripts]
      ∧ (handleRequest cfg buildKey publicPath appPresent helmetTitle
          helmetMeta brFn entropy off reqUrl).nextEntropyOffset
        = off + 32
      ∧ (∀ i < 32, ∀ j < 32, off + i ≠ (off + 32) + j) := by
  refine ⟨?_, ?_, by omega⟩
  · simp [handleRequest, hbr, envelope, sealBytes]
  · simp [handleRequest, hbr]

/-- Witness for C2 at a concrete request. -/
theorem c2_envelope_string_witness :
    ((fun (_ : String) (_ : Config) =>
        (.ok ⟨none, none, none⟩ : Except String BeforeRenderResult))
      "/u" (sanitize []) = .ok ⟨none, none, none⟩)
    ∧ (handleRequest [] exKey "/p/" false "" ""
        (fun _ _ => .ok ⟨none, none, none⟩) (fun i => i) 0 "/u").sent
      = [assembleDocument "/p/" "" "" [] (Json.obj [])
          (String.mk (base64Encode (ivBytes (fun i => i) 0
            ++ wordsBytes (cbcEnc (roundKeys exKey)
              ((ivBytes (fun i => i) 0).take 16)
              (toBlocks (pkcs7pad (utf8Encode (stringify
                (injPayload [] ⟨none, none, none⟩)))))))))
          "" none] :=
  ⟨rfl, ((c2_envelope_string [] exKey "/p/" false "" ""
    (fun _ _ => .ok ⟨none, none, none⟩) (fun i => i) 0 "/u"
    ⟨none, none, none⟩ rfl).1)⟩

/-- C3: with `maxSsrRounds = 0` the multi-round renderer makes no render
invocation at all, ends in the terminal state `ROUND_LIMIT_ZERO` with
the untouched initial context, and the assembled document is exactly the
hydration scaffold: the document built from empty root markup. -/
theorem c3_round_limit_zero (render : SsrCtx → SsrCtx)
    (isStable : SsrCtx → Bool) (publicPath title meta inj : String)
    (extraScripts : Option (List String)) :
    runSsr render isStable 0 initSsrCtx
        = (.ROUND_LIMIT_ZERO, initSsrCtx, 0)
      ∧ ssrDocument render isStable 0 publicPath title meta inj
          extraScripts
        = assembleDocument publicPath title meta [] (Json.obj []) inj ""
            extraScripts := by
  constructor
  · simp [runSsr]
  · simp [ssrDocument, runSsr, initSsrCtx]


/-- An empty build manifest asset map (`assetsByChunkName`): the chunk
name "foo" has no entry in it. -/
def c4Manifest : List (String × List String) := []

/-- C4 (counterexample): the stylesheet links are NOT the intersection
of the chunk list with the build manifest's asset map.  The chunk name
"foo" misses every manifest lookup (the manifest is empty), yet the
assembled document still carries a stylesheet link for it: lines 134-136
map every chunk in the render context to a link without consulting any
manifest. -/
theorem c4_missing_chunk_counterexample :
    (c4Manifest.all (fun p => p.1 != "foo")) = true
      ∧ strOccurs
          (assembleDocument "/p/" "" "" ["foo"] (Json.obj []) "I" "" none)
          (styleLink "foo") = true := by
  refine ⟨rfl, by decide⟩

/-- C4 (amended): the assembled document carries one stylesheet link,
`<link data-chunk="c" href="/c.css" rel="stylesheet" />`, for EVERY
chunk name in the render result's chunk list, in order - no manifest is
consulted, so a chunk missing from the manifest is not detected, logged
or skipped (and nothing aborts the request). -/
theorem c4_styles_unfiltered (publicPath title meta : String)
    (chunks : List String) (splits : Json) (inj rootMarkup : String)
    (extraScripts : Option (List String)) :
    assembleDocument publicPath title meta chunks splits inj rootMarkup
        extraScripts
      = (docPart1 ++ title ++ docPart2 ++ meta ++ docPart3 publicPath)
        ++ String.join (chunks.map styleLink)
        ++ (docPart4 ++ rootMarkup ++ docPart5 ++ stringify splits
          ++ docPart6 ++ inj ++ docPart7 publicPath
          ++ joinExtras extraScripts ++ docPart8 publicPath) := by
  simp [assembleDocument, stylesString, String.append_assoc]

/-- The extra script of C5's counterexample. -/
def c5Extra : String := "<script src=\"extra.js\"></script>"

/-- The document of C5's counterexample: one caller-supplied extra
script. -/
def c5Doc : String :=
  assembleDocument "/p/" "" "" [] (Json.obj []) "I" "" (some [c5Extra])

/-- C5 (counterexample): the caller-supplied extra script occurs in the
assembled document, the main script tag occurs in it, but the extra
script never occurs after the main script tag - extra scripts are
injected BEFORE the main script, not appended after it. -/
theorem c5_extra_scripts_counterexample :
    strOccurs c5Doc c5Extra = true
      ∧ strOccurs c5Doc (scriptMain "/p/") = true
      ∧ occursAfterFirst c5Doc (scriptMain "/p/") c5Extra = false := by
  refine ⟨by decide, by decide, by decide⟩

/-- C5 (amended): after the root markup and the inline data script, the
document carries the polyfills script tag, then the caller-supplied
extra scripts verbatim, then the main script tag: every extra script
sits BETWEEN the polyfills script and the main script (the template has
no runtime chunk). -/
theorem c5_script_order (publicPath title meta : String)
    (chunks : List String) (splits : Json) (inj rootMarkup : String)
    (extraScripts : Option (List String)) :
    assembleDocument publicPath title meta chunks splits inj rootMarkup
        extraScripts
      = (docPart1 ++ title ++ docPart2 ++ meta ++ docPart3 publicPath
          ++ stylesString chunks ++ docPart4 ++ rootMarkup ++ docPart5
          ++ stringify splits ++ docPart6 ++ inj ++ injClose)
        ++ scriptPolyfills publicPath ++ scriptGap
        ++ joinExtras extraScripts ++ scriptGap
        ++ scriptMain publicPath ++ docTail := by
  simp [assembleDocument, docPart7, docPart8, String.append_assoc]

/-- C6 (code bug): when an awaited step of the handler fails (here: the
`beforeRender` hook rejects), the handler sends nothing - but it also
reports the error to no error callback at all: the handler of lines
77-177 declares no `next` parameter and wraps nothing in a catch, so the
rejection escapes and the designated error channel is invoked ZERO
times, not exactly once as claimed (the repository's own renderer tests
invoke the middleware with an error callback and expect it to receive
such errors). -/
theorem c6_failure_no_callback (cfg : Config) (buildKey : List Nat)
    (publicPath : String) (appPresent : Bool)
    (helmetTitle helmetMeta : String)
    (brFn : String → Config → Except String BeforeRenderResult)
    (entropy : Nat → Nat) (off : Nat) (reqUrl : String) (e : String)
    (hbr : brFn reqUrl (sanitize cfg) = .error e) :
    handleRequest cfg buildKey publicPath appPresent helmetTitle
        helmetMeta brFn entropy off reqUrl
      = { statusCalls := []
          sent := []
          errorCallbackCalls := 0
          result := .error e
          nextEntropyOffset := off + 32 } := by
  simp [handleRequest, hbr]

/-- Witness for C6 at a concrete rejecting `beforeRender`. -/
theorem c6_failure_no_callback_witness :
    handleRequest [] exKey "/p/" false "" ""
        (fun _ _ => .error "boom") (fun i => i) 0 "/u"
      = { statusCalls := []
          sent := []
          errorCallbackCalls := 0
          result := .error "boom"
          nextEntropyOffset := 32 } :=
  c6_failure_no_callback [] exKey "/p/" false "" ""
    (fun _ _ => .error "boom") (fun i => i) 0 "/u" "boom" rfl

/-- C7: build-info loading fails with the missing-file error when the
artifact is absent at `context/.build-info`, and with the corrupt-data
error when its content does not parse as JSON; in either case the
factory resolves to an error and never to a request-handler state. -/
theorem c7_build_info_failures (fs : String → Option String)
    (ctx publicPath : String) :
    (fs (ctx ++ "/.build-info") = none →
      factoryResult fs ctx publicPath = .error .missing)
      ∧ (∀ content, fs (ctx ++ "/.build-info") = some content →
          parseJson content = none →
          factoryResult fs ctx publicPath = .error .corrupt) := by
  constructor
  · intro h
    simp [factoryResult, getBuildInfo, h]
  · intro content h hp
    simp [factoryResult, getBuildInfo, h, hp]

/-- Witness for C7: an absent file and an unparseable file. -/
theorem c7_build_info_failures_witness :
    factoryResult (fun _ => none) "ctx" "/" = .error .missing
      ∧ parseJson "not json" = none
      ∧ factoryResult (fun _ => some "not json") "ctx" "/"
          = .error .corrupt :=
  ⟨(c7_build_info_failures (fun _ => none) "ctx" "/").1 rfl, rfl,
    (c7_build_info_failures (fun _ => some "not json") "ctx" "/").2
      "not json" rfl rfl⟩

/-- C8: document assembly is a pure function of its inputs - two runs on
pointwise-equal inputs produce byte-identical documents. -/
theorem c8_assemble_deterministic (pp1 t1 m1 : String)
    (ch1 : List String) (sp1 : Json) (inj1 r1 : String)
    (ex1 : Option (List String)) (pp2 t2 m2 : String)
    (ch2 : List String) (sp2 : Json) (inj2 r2 : String)
    (ex2 : Option (List String))
    (h1 : pp1 = pp2) (h2 : t1 = t2) (h3 : m1 = m2) (h4 : ch1 = ch2)
    (h5 : sp1 = sp2) (h6 : inj1 = inj2) (h7 : r1 = r2) (h8 : ex1 = ex2) :
    assembleDocument pp1 t1 m1 ch1 sp1 inj1 r1 ex1
      = assembleDocument pp2 t2 m2 ch2 sp2 inj2 r2 ex2 := by
  subst h1 h2 h3 h4 h5 h6 h7 h8
  rfl

/-- Witness for C8 at concrete inputs. -/
theorem c8_assemble_deterministic_witness :
    assembleDocument "/p/" "t" "m" ["c"] (Json.obj []) "I" "r"
        (some ["s"])
      = assembleDocument "/p/" "t" "m" ["c"] (Json.obj []) "I" "r"
          (some ["s"]) :=
  c8_assemble_deterministic "/p/" "t" "m" ["c"] (Json.obj []) "I" "r"
    (some ["s"]) "/p/" "t" "m" ["c"] (Json.obj []) "I" "r" (some ["s"])
    rfl rfl rfl rfl rfl rfl rfl rfl

/-- C9: the configuration handed to `beforeRender` is the global config
with `SECRET` removed, two configs that agree after that removal drive
the handler to identical outputs (so `SECRET` never influences the
document through any path), and when `beforeRender` supplies no
`configToInject` the `CONFIG` field of the encrypted payload is that
same sanitized config. -/
theorem c9_secret_noninterference :
    (∀ (cfg1 cfg2 : Config) (buildKey : List Nat)
        (publicPath : String) (appPresent : Bool)
        (helmetTitle helmetMeta : String)
        (brFn : String → Config → Except String BeforeRenderResult)
        (entropy : Nat → Nat) (off : Nat) (reqUrl : String),
      sanitize cfg1 = sanitize cfg2 →
      handleRequest cfg1 buildKey publicPath appPresent helmetTitle
          helmetMeta brFn entropy off reqUrl
        = handleRequest cfg2 buildKey publicPath appPresent helmetTitle
            helmetMeta brFn entropy off reqUrl)
      ∧ (∀ (cfg : Config) (br : BeforeRenderResult),
          br.configToInject = none →
          injPayload cfg br = Json.obj
            [("CONFIG", Json.obj (sanitize cfg)),
             ("ISTATE", match br.store with
               | some st => st
               | none => Json.null)]) := by
  constructor
  · intro cfg1 cfg2 buildKey publicPath appPresent helmetTitle
      helmetMeta brFn entropy off reqUrl h
    unfold handleRequest injPayload
    rw [h]
  · intro cfg br h
    rcases hst : br.store with _ | st <;> simp [injPayload, h, jsOr, hst]

/-- A config with a SECRET field, variant a. -/
def c9CfgA : Config := [("API", Json.str "x"), ("SECRET", Json.str "a")]

/-- The same config with a different SECRET, variant b. -/
def c9CfgB : Config := [("API", Json.str "x"), ("SECRET", Json.str "b")]

/-- Witness for C9: two configs differing only in `SECRET` produce the
same handler output, and the payload's `CONFIG` defaults to the
sanitized config. -/
theorem c9_secret_noninterference_witness :
    handleRequest c9CfgA exKey "/p/" false "" ""
        (fun _ _ => .ok ⟨none, none, none⟩) (fun i => i) 0 "/u"
      = handleRequest c9CfgB exKey "/p/" false "" ""
          (fun _ _ => .ok ⟨none, none, none⟩) (fun i => i) 0 "/u"
      ∧ injPayload c9CfgA ⟨none, none, none⟩
        = Json.obj [("CONFIG", Json.obj (sanitize c9CfgA)),
            ("ISTATE", Json.null)] :=
  ⟨c9_secret_noninterference.1 c9CfgA c9CfgB exKey "/p/" false "" ""
      (fun _ _ => .ok ⟨none, none, none⟩) (fun i => i) 0 "/u" rfl,
    c9_secret_noninterference.2 c9CfgA ⟨none, none, none⟩ rfl⟩

/-- C10: with `options.Application` absent the handler still sends
exactly one complete document; its root `react-view` div content is the
empty string, its inline script carries the serialized splits map of the
(untouched) render context - the empty object - as `window.SPLITS`, and
the envelope string as `window.INJ`. -/
theorem c10_no_application (cfg : Config) (buildKey : List Nat)
    (publicPath helmetTitle helmetMeta : String)
    (brFn : String → Config → Except String BeforeRenderResult)
    (entropy : Nat → Nat) (off : Nat) (reqUrl : String)
    (br : BeforeRenderResult)
    (hbr : brFn reqUrl (sanitize cfg) = .ok br) :
    handleRequest cfg buildKey publicPath false helmetTitle helmetMeta
        brFn entropy off reqUrl
      = { statusCalls := []
          sent := [assembleDocument publicPath "" "" [] (Json.obj [])
            (envelope buildKey (ivBytes entropy off)
              (utf8Encode (stringify (injPayload cfg br))))
            "" br.extraScripts]
          errorCallbackCalls := 0
          result := .ok ()
          nextEntropyOffset := off + 32 }
      ∧ stringify (Json.obj []) = "\x7b\x7d" := by
  refine ⟨?_, rfl⟩
  simp [handleRequest, hbr]

/-- Witness for C10 at a concrete request with no Application. -/
theorem c10_no_application_witness :
    handleRequest [] exKey "/p/" false "t" "m"
        (fun _ _ => .ok ⟨none, none, none⟩) (fun i => i) 0 "/u"
      = { statusCalls := []
          sent := [assembleDocument "/p/" "" "" [] (Json.obj [])
            (envelope exKey (ivBytes (fun i => i) 0)
              (utf8Encode (stringify (injPayload []
                ⟨none, none, none⟩))))
            "" none]
          errorCallbackCalls := 0
          result := .ok ()
          nextEntropyOffset := 32 } :=
  (c10_no_application [] exKey "/p/" "t" "m"
    (fun _ _ => .ok ⟨none, none, none⟩) (fun i => i) 0 "/u"
    ⟨none, none, none⟩ rfl).1

end TCRU
